import Mathlib

/-!
# m_pgsql: the PostgreSQL service provider of InspIRCd

A shallow embedding of `src/modules/extra/m_pgsql.cpp`.

* Strings (`std::string`, `char*` buffers) are lists of characters.
* A `Module*` is the module's address; `NULL` is `none`.
* `std::deque<SQLrequest>` is a list, front first.
* C++ undefined behaviour (reading `front()` of an empty deque, moving an
  iterator past `end()`) is the result `none`.
* The driver (libpq) is not part of the program: its answers are inputs, and
  what the program does to it is recorded in the connection's `sql` handle and
  in the `trace` of the connection.
-/

namespace PgSQL

/-! ## Data model -/

/-- Modelled from the spec: `SQLquery` is declared in `m_sqlv2.h`, which is not among the
sources; `q` is the query template and `p` the parameter list (`ParamL`, a deque of
strings), as `DoQuery` uses them. -/
structure SQLquery where
  q : List Char
  p : List (List Char)
deriving DecidableEq, Repr

/-- Modelled from the spec: the error kinds of `m_sqlv2.h` that `m_pgsql.cpp` names. -/
inductive SQLerrorNum where
  | NO_ERROR
  | BAD_DBID
  | BAD_CONN
  | QSEND_FAIL
deriving DecidableEq, Repr

/-- Modelled from the spec: `SQLerror` of `m_sqlv2.h`, an error kind and a message. -/
structure SQLerror where
  id : SQLerrorNum
  str : List Char
deriving DecidableEq, Repr

/-- The value `SQLerror()` builds: no error. -/
def SQLerror.none : SQLerror := ⟨SQLerrorNum.NO_ERROR, []⟩

/-- Modelled from the spec: `SQLrequest` is declared in `m_sqlv2.h`, which is not among the
sources; these are the members `m_pgsql.cpp` reads and writes. `source` is what
`GetSource()` returns and `SetSource` sets. -/
structure SQLrequest where
  query : SQLquery
  dbid : List Char
  pri : Bool
  id : Nat
  error : SQLerror
  source : Option Nat
deriving DecidableEq, Repr

/-- `SetSource(NULL)`. -/
def SQLrequest.clearSource (r : SQLrequest) : SQLrequest := { r with source := Option.none }

/-- The member `which` of `QueryQueue`: the deque the active request heads. -/
inductive Which where
  | PRI
  | NOR
  | NON
deriving DecidableEq, Repr

/-- `QueryQueue`: the two deques and the pin `which`. -/
structure QueryQueue where
  priority : List SQLrequest
  normal : List SQLrequest
  which : Which
deriving DecidableEq, Repr

namespace QueryQueue

/-- The constructor `QueryQueue()`: both deques empty, `which(NON)`. -/
def empty : QueryQueue := ⟨[], [], Which.NON⟩

/-- `QueryQueue::push`. -/
def push (qq : QueryQueue) (q : SQLrequest) : QueryQueue :=
  if q.pri then { qq with priority := qq.priority ++ [q] }
  else { qq with normal := qq.normal ++ [q] }

/-- `QueryQueue::pop`. -/
def pop (qq : QueryQueue) : QueryQueue :=
  if qq.which = Which.PRI ∧ qq.priority.length ≠ 0 then
    { qq with priority := qq.priority.tail, which := Which.NON }
  else if qq.which = Which.NOR ∧ qq.normal.length ≠ 0 then
    { qq with normal := qq.normal.tail, which := Which.NON }
  else
    { qq with which := Which.NON }

/-- `QueryQueue::front`: the request returned and the queue afterwards (the pin may be
set). `none` is the read of the front of an empty deque. -/
def front (qq : QueryQueue) : Option (SQLrequest × QueryQueue) :=
  match qq.which with
  | Which.PRI => qq.priority.head?.map (fun r => (r, qq))
  | Which.NOR => qq.normal.head?.map (fun r => (r, qq))
  | Which.NON =>
    if qq.priority.length ≠ 0 then
      qq.priority.head?.map (fun r => (r, { qq with which := Which.PRI }))
    else if qq.normal.length ≠ 0 then
      qq.normal.head?.map (fun r => (r, { qq with which := Which.NOR }))
    else
      qq.priority.head?.map (fun r => (r, qq))

/-- `QueryQueue::size`. -/
def size (qq : QueryQueue) : Nat × Nat := (qq.priority.length, qq.normal.length)

/-- `QueryQueue::totalsize`. -/
def totalsize (qq : QueryQueue) : Nat := qq.priority.length + qq.normal.length

/-- The deque a `ReqDeque&` argument of `DoPurgeModule` refers to: `true` is `priority`. -/
def deque (qq : QueryQueue) (pri : Bool) : List SQLrequest :=
  if pri then qq.priority else qq.normal

/-- Assignment through a `ReqDeque&`. -/
def setDeque (qq : QueryQueue) (pri : Bool) (l : List SQLrequest) : QueryQueue :=
  if pri then { qq with priority := l } else { qq with normal := l }

/-- The loop of `QueryQueue::DoPurgeModule` over the deque selected by `pri`. The iterator
is `k` places before `end()`, so it stands at index `length - k`. After `q.erase(iter)` the
iterator returned stands at the element that followed, and the `iter++` of the loop header
then steps over that element; when the erased element was the last one, `erase` returns
`end()` and the `iter++` moves past the end, which is undefined: `none`. -/
def DoPurgeLoop (mod : Option Nat) (pri : Bool) : Nat → QueryQueue → Option QueryQueue
  | 0, qq => some qq
  | k + 1, qq =>
    let i := (qq.deque pri).length - (k + 1)
    match (qq.deque pri)[i]? with
    | Option.none => Option.none
    | some it =>
      if it.source = mod then
        match qq.front with
        | Option.none => Option.none
        | some (f, qq1) =>
          if it.id = f.id then
            DoPurgeLoop mod pri k (qq1.setDeque pri ((qq1.deque pri).set i it.clearSource))
          else
            match k with
            | 0 => Option.none
            | j + 1 => DoPurgeLoop mod pri j (qq1.setDeque pri ((qq1.deque pri).eraseIdx i))
      else
        DoPurgeLoop mod pri k qq

/-- `QueryQueue::DoPurgeModule`: the loop from `q.begin()`. -/
def DoPurgeModule (mod : Option Nat) (pri : Bool) (qq : QueryQueue) : Option QueryQueue :=
  DoPurgeLoop mod pri (qq.deque pri).length qq

/-- `QueryQueue::PurgeModule`: the priority deque, then the normal one. -/
def PurgeModule (mod : Option Nat) (qq : QueryQueue) : Option QueryQueue :=
  (DoPurgeModule mod true qq).bind (DoPurgeModule mod false)

end QueryQueue

/-! ## Query text -/

/-- The substitution loop of `SQLConn::DoQuery` (the `for` over `req.query.q`): `out` is
what has been written between `query` and `queryend`, the first list is the part of the
template not yet read and `p` is `req.query.p`. `esc` is the text `PQescapeStringConn`
writes for a parameter (`queryend` advances by its length). The result is the text
written when the loop ends and what is left of `req.query.p`. -/
def buildQuery (esc : List Char → List Char) :
    List Char → List (List Char) → List Char → List Char × List (List Char)
  | [], p, out => (out, p)
  | c :: cs, p, out =>
    if c = '?' then
      match p with
      | par :: rest => buildQuery esc cs rest (out ++ esc par)
      | [] => (out, [])
    else
      buildQuery esc cs p (out ++ [c])

/-! ## The driver -/

/-- Modelled from the spec: a `PGresult` of libpq (declared in `libpq-fe.h`), as the
already fetched table the result object reads: the column names and, per row, the value
bytes and null flag of each column. -/
structure PGresult where
  fnames : List (List Char)
  tuples : List (List (List Char × Bool))
deriving DecidableEq, Repr

/-- The driver handle `sql`. The program never looks inside it; `pending` counts the
commands `PQsendQuery` accepted whose results have not been fetched with `PQgetResult`. -/
structure PGconn where
  pending : Nat
deriving DecidableEq, Repr

/-- What the driver answers during one pass of `DoConnectedPoll` (or one call of `Query`):
`sendOk` is the return of `PQsendQuery` should it be called, `errmsg` that of
`PQerrorMessage`, `consumeOk` that of `PQconsumeInput`, `busy` that of `PQisBusy`, and
`results` the successive non-null returns of `PQgetResult`. -/
structure Answers where
  sendOk : Bool
  errmsg : List Char
  consumeOk : Bool
  busy : Bool
  results : List PGresult
deriving DecidableEq, Repr

/-- What a connection does that the outside sees: a call of `PQsendQuery` for the request
`id` with the text built, the driver's answer and the driver's `pending` count at the call;
a result object sent to a module (`reply.Send()`); a zombie result released. -/
inductive Event where
  | send (id : Nat) (text : List Char) (accepted : Bool) (pending : Nat)
  | reply (id : Nat) (dest : Nat) (res : Option PGresult)
  | zombie (id : Nat) (res : Option PGresult)
deriving DecidableEq, Repr

/-- Whether an event is a call of `PQsendQuery` made while the driver still held a command
whose result had not been fetched. -/
def Event.overlaps : Event → Bool
  | Event.send _ _ _ pending => pending != 0
  | _ => false

/-! ## SQLConn -/

/-- The enum `SQLstatus`. -/
inductive SQLstatus where
  | CREAD
  | CWRITE
  | WREAD
  | WWRITE
deriving DecidableEq, Repr

/-- The members of `SQLConn` the claims are about, and the `trace` of what it has done. -/
structure SQLConn where
  dbhost : List Char
  dbport : Nat
  dbname : List Char
  dbuser : List Char
  dbpass : List Char
  ssl : Bool
  sql : PGconn
  status : SQLstatus
  qinprog : Bool
  queue : QueryQueue
  trace : List Event
deriving DecidableEq, Repr

namespace QueryQueue

/-- Assignment through the reference `front()` returned: the head of the pinned deque is
replaced. -/
def setFront (qq : QueryQueue) (r : SQLrequest) : QueryQueue :=
  match qq.which with
  | Which.PRI => { qq with priority := qq.priority.set 0 r }
  | Which.NOR => { qq with normal := qq.normal.set 0 r }
  | Which.NON => qq

end QueryQueue

namespace SQLConn

/-- The state the constructor `SQLConn::SQLConn` leaves: `status(CWRITE)`,
`qinprog(false)`, an empty queue. -/
def init (h : List Char) (p : Nat) (d u pwd : List Char) (s : Bool) : SQLConn :=
  { dbhost := h, dbport := p, dbname := d, dbuser := u, dbpass := pwd, ssl := s,
    sql := ⟨0⟩, status := SQLstatus.CWRITE, qinprog := false,
    queue := QueryQueue.empty, trace := [] }

/-- `SQLConn::DoQuery`: the error returned, the request as the call leaves it (its
template is overwritten with the text built, its parameters are consumed) and the
connection afterwards. -/
def DoQuery (esc : List Char → List Char) (a : Answers) (req : SQLrequest) (c : SQLConn) :
    SQLerror × SQLrequest × SQLConn :=
  if c.status = SQLstatus.WREAD ∨ c.status = SQLstatus.WWRITE then
    if c.qinprog = false then
      let built := buildQuery esc req.query.q req.query.p []
      let req1 : SQLrequest := { req with query := ⟨built.1, built.2⟩ }
      if a.sendOk = true then
        (SQLerror.none, req1,
          { c with qinprog := true, sql := ⟨c.sql.pending + 1⟩,
                   trace := c.trace ++ [Event.send req.id built.1 true c.sql.pending] })
      else
        (⟨SQLerrorNum.QSEND_FAIL, a.errmsg⟩, req1,
          { c with trace := c.trace ++ [Event.send req.id built.1 false c.sql.pending] })
    else
      (⟨SQLerrorNum.BAD_CONN, "Can't query until connection is complete".toList⟩, req, c)
  else
    (⟨SQLerrorNum.BAD_CONN, "Can't query until connection is complete".toList⟩, req, c)

/-- The block `if(!qinprog && queue.totalsize()) { SQLrequest& query = queue.front();
DoQuery(query); }` that opens `DoConnectedPoll` and closes `Query`: the error `DoQuery`
returned (`SQLerror()` when the block is skipped) and the connection afterwards. `none` is
the undefined `front()`. -/
def dispatch (esc : List Char → List Char) (a : Answers) (c : SQLConn) :
    Option (SQLerror × SQLConn) :=
  if c.qinprog = false ∧ c.queue.totalsize ≠ 0 then
    match c.queue.front with
    | Option.none => Option.none
    | some (query, qq) =>
      let r := DoQuery esc a query { c with queue := qq }
      some (r.1, { r.2.2 with queue := r.2.2.queue.setFront r.2.1 })
  else
    some (SQLerror.none, c)

/-- `SQLConn::Query`. -/
def Query (esc : List Char → List Char) (a : Answers) (req : SQLrequest) (c : SQLConn) :
    Option (SQLerror × SQLConn) :=
  dispatch esc a { c with queue := c.queue.push req }

end SQLConn

/-! ### Sizes, needed for the recursion of `DoConnectedPoll` -/

namespace QueryQueue

theorem totalsize_of_front {qq qq1 : QueryQueue} {r : SQLrequest}
    (h : qq.front = some (r, qq1)) : qq1.totalsize = qq.totalsize := by
  obtain ⟨p, n, w⟩ := qq
  unfold front at h
  cases w <;> cases p <;> cases n <;>
    simp [totalsize] at h ⊢ <;>
    (obtain ⟨_, h⟩ := h; subst h; simp [totalsize])

theorem totalsize_pop_of_front {qq qq1 : QueryQueue} {r : SQLrequest}
    (h : qq.front = some (r, qq1)) : qq1.pop.totalsize + 1 = qq1.totalsize := by
  obtain ⟨p, n, w⟩ := qq
  unfold front at h
  cases w <;> cases p <;> cases n <;>
    simp [pop, totalsize] at h ⊢ <;>
    (obtain ⟨_, h⟩ := h; subst h; simp [pop, totalsize]) <;> omega

theorem totalsize_setFront (qq : QueryQueue) (r : SQLrequest) :
    (qq.setFront r).totalsize = qq.totalsize := by
  unfold setFront totalsize
  cases qq.which <;> simp

end QueryQueue

namespace SQLConn

theorem queue_DoQuery (esc : List Char → List Char) (a : Answers) (req : SQLrequest)
    (c : SQLConn) : (DoQuery esc a req c).2.2.queue = c.queue := by
  unfold DoQuery
  split_ifs <;> rfl

theorem totalsize_of_dispatch {esc : List Char → List Char} {a : Answers} {c c1 : SQLConn}
    {e : SQLerror} (h : dispatch esc a c = some (e, c1)) :
    c1.queue.totalsize = c.queue.totalsize := by
  unfold dispatch at h
  split_ifs at h with hc
  · split at h
    · exact absurd h (by simp)
    · rename_i query qq hf
      simp only [Option.some.injEq, Prod.mk.injEq] at h
      rw [← h.2]
      simp only [QueryQueue.totalsize_setFront, queue_DoQuery]
      exact QueryQueue.totalsize_of_front hf
  · simp only [Option.some.injEq, Prod.mk.injEq] at h
    rw [← h.2]

/-- `PQgetResult`: the first result the driver has buffered for the command and what it
keeps buffered, or `NULL` when it has none. -/
def PQgetResult (buf : List PGresult) : Option PGresult × List PGresult :=
  match buf with
  | [] => (Option.none, [])
  | r :: rest => (some r, rest)

/-- What the fetching of results in `DoConnectedPoll` leaves: `kept` is `result` after the
loop, `cleared` the results given to `PQclear` inside the loop, in order, and `buffered`
what the driver still holds. -/
structure Fetched where
  kept : Option PGresult
  cleared : List PGresult
  buffered : List PGresult
deriving DecidableEq, Repr

/-- The loop `while (PGresult* temp = PQgetResult(sql)) { PQclear(result); result = temp; }`
on the current `result`, the driver's buffer and the results cleared so far. -/
def fetchLoop : Option PGresult → List PGresult → List PGresult → Fetched
  | result, [], cleared => ⟨result, cleared, []⟩
  | result, temp :: rest, cleared => fetchLoop (some temp) rest (cleared ++ result.toList)

/-- `PGresult* result = PQgetResult(sql);` followed by the draining loop. -/
def fetchResults (buf : List PGresult) : Fetched :=
  fetchLoop (PQgetResult buf).1 (PQgetResult buf).2 []

/-- What `DoConnectedPoll` does with the result it kept for the request `query`: with a
non-null source `to`, `PgSQLresult reply(us, to, query.id, result); reply.Send();`, and
with a null source the result is released (`PQclear`). -/
def deliver (query : SQLrequest) (result : Option PGresult) : Event :=
  match query.source with
  | some dest => Event.reply query.id dest result
  | Option.none => Event.zombie query.id result

/-- The part of `DoConnectedPoll` that consumes the result of the request `query` (the
request `front()` returned, `qq` being the queue after that call): the results are
fetched, the one kept is sent to the source or released, then `qinprog = false;
queue.pop();`. -/
def afterResult (a : Answers) (query : SQLrequest) (qq : QueryQueue) (c1 : SQLConn) :
    SQLConn :=
  { c1 with qinprog := false, queue := qq.pop, sql := ⟨c1.sql.pending - 1⟩,
            trace := c1.trace ++ [deliver query (fetchResults a.results).kept] }

/-- `SQLConn::DoConnectedPoll`, one answer record of the driver per pass: `drv depth` is
what the driver answers during the pass at recursion depth `depth`. The function calls
itself after `queue.pop()` has removed the request whose result was consumed, so the
number of passes is at most `totalsize + 1`: `fuel` is that bound, carried with its proof,
and is never exhausted. `none` is the undefined `front()`. -/
def DoConnectedPollAux (esc : List Char → List Char) (drv : Nat → Answers) :
    (fuel : Nat) → Nat → (c : SQLConn) → c.queue.totalsize < fuel → Option (Bool × SQLConn)
  | 0, _, _, h => absurd h (Nat.not_lt_zero _)
  | fuel + 1, depth, c, h =>
    match hd : dispatch esc (drv depth) c with
    | Option.none => Option.none
    | some (_, c1) =>
      if (drv depth).consumeOk = true then
        if (drv depth).busy = true then
          some (true, c1)
        else if c1.qinprog = true then
          match hf : c1.queue.front with
          | Option.none => Option.none
          | some (query, qq) =>
            let c2 : SQLConn := afterResult (drv depth) query qq c1
            have h2 : c2.queue.totalsize < fuel := by
              have e1 := totalsize_of_dispatch hd
              have e2 := QueryQueue.totalsize_of_front hf
              have e3 := QueryQueue.totalsize_pop_of_front hf
              show qq.pop.totalsize < fuel
              omega
            match DoConnectedPollAux esc drv fuel (depth + 1) c2 h2 with
            | Option.none => Option.none
            | some (_, c3) => some (true, c3)
        else
          some (true, c1)
      else
        some (false, c1)

/-- `SQLConn::DoConnectedPoll`. -/
def DoConnectedPoll (esc : List Char → List Char) (drv : Nat → Answers) (c : SQLConn) :
    Option (Bool × SQLConn) :=
  DoConnectedPollAux esc drv (c.queue.totalsize + 1) 0 c (Nat.lt_succ_self _)

/-- `SQLConn::OnUnloadModule`. -/
def OnUnloadModule (mod : Option Nat) (c : SQLConn) : Option SQLConn :=
  (c.queue.PurgeModule mod).map (fun qq => { c with queue := qq })

end SQLConn

/-! ## ModulePgSQL -/

/-- The members `connections` (a `ConnMap`, as its list of entries in key order) and
`currid` of `ModulePgSQL`. -/
structure ModulePgSQL where
  connections : List (List Char × SQLConn)
  currid : Nat
deriving DecidableEq, Repr

namespace ModulePgSQL

/-- `ModulePgSQL::OnUnloadModule`: a `for` loop over `connections` whose body is empty. -/
def OnUnloadModule (_mod : Option Nat) (_name : List Char) (m : ModulePgSQL) : ModulePgSQL :=
  m.connections.foldl (fun acc _ => acc) m

end ModulePgSQL

/-! ## Runs of a queue and of a connection -/

/-- A call made on a `QueryQueue` by its owner. -/
inductive QOp where
  | push (q : SQLrequest)
  | front
  | pop
deriving DecidableEq, Repr

namespace QueryQueue

/-- One call, on the queue and the list of the requests `front()` has returned so far.
`front()` is called as its callers call it, after a check of `totalsize()`: on an empty
queue the call is not made. -/
def step (s : QueryQueue × List SQLrequest) : QOp → Option (QueryQueue × List SQLrequest)
  | QOp.push q => some (s.1.push q, s.2)
  | QOp.front =>
    if s.1.totalsize = 0 then some s
    else s.1.front.map (fun r => (r.2, s.2 ++ [r.1]))
  | QOp.pop => some (s.1.pop, s.2)

/-- A sequence of calls, in order. -/
def run : List QOp → QueryQueue × List SQLrequest → Option (QueryQueue × List SQLrequest)
  | [], s => some s
  | o :: os, s => (step s o).bind (run os)

/-- The request `r` heads the deque the pin selects: it is the active request. -/
def Active (qq : QueryQueue) (r : SQLrequest) : Prop :=
  (qq.which = Which.PRI ∧ qq.priority.head? = some r) ∨
  (qq.which = Which.NOR ∧ qq.normal.head? = some r)

end QueryQueue

/-- The template with every `?` replaced, the `?` that has `k` others before it by the
escaped parameter of index `k`, and every other character kept in place: the pieces for
the positions `0 .. length - 1`, concatenated. -/
def substituted (esc : List Char → List Char) (t : List Char) (ps : List (List Char)) :
    List Char :=
  ((List.range t.length).map (fun j =>
    if t.getD j ' ' = '?' then esc (ps.getD ((t.take j).count '?') []) else [t.getD j ' '])).flatten

/-- The prefix of a template that stands before its `(m+1)`-th `?`; the whole template
when it has at most `m` of them. -/
def beforePlaceholder : Nat → List Char → List Char
  | _, [] => []
  | m, c :: cs =>
    if c = '?' then
      match m with
      | 0 => []
      | n + 1 => c :: beforePlaceholder n cs
    else c :: beforePlaceholder m cs

/-- The text the partial-substitution rule describes for fewer parameters than
placeholders: the prefix before the first `?` without a parameter, substituted, followed
by the rest of the template from that `?` on. -/
def substitutedThenRest (esc : List Char → List Char) (t : List Char)
    (ps : List (List Char)) : List Char :=
  substituted esc (beforePlaceholder ps.length t) ps
    ++ t.drop (beforePlaceholder ps.length t).length

namespace SQLConn

/-- The states of a connection reachable from the constructor through `Query`,
`DoConnectedPoll` and `DoQuery`, whatever the driver answers, and through the assignments
`DoPoll` makes to `status`. -/
inductive Reachable (esc : List Char → List Char) : SQLConn → Prop where
  | init (h : List Char) (p : Nat) (d u pwd : List Char) (s : Bool) :
      Reachable esc (SQLConn.init h p d u pwd s)
  | status {c : SQLConn} (s : SQLstatus) :
      Reachable esc c → Reachable esc { c with status := s }
  | query {c c1 : SQLConn} {e : SQLerror} (a : Answers) (req : SQLrequest) :
      Reachable esc c → Query esc a req c = some (e, c1) → Reachable esc c1
  | poll {c c1 : SQLConn} {b : Bool} (drv : Nat → Answers) :
      Reachable esc c → DoConnectedPoll esc drv c = some (b, c1) → Reachable esc c1
  | doQuery {c : SQLConn} (a : Answers) (req : SQLrequest) :
      Reachable esc c → Reachable esc (DoQuery esc a req c).2.2

/-- The invariant behind "one query in flight": the driver holds one unfetched command
when `qinprog` is set and none otherwise, and no `PQsendQuery` call recorded in the trace
was made while the driver held an unfetched command. -/
def OneInFlight (c : SQLConn) : Prop :=
  c.sql.pending = (if c.qinprog = true then 1 else 0) ∧
  ∀ e ∈ c.trace, e.overlaps = false

end SQLConn

/-! ## The query buffer of `DoQuery` -/

/-- The loop of `DoQuery` that sums the sizes of the parameters into the `unsigned int
paramlen` (32 bits). -/
def paramlen (p : List (List Char)) : Nat :=
  p.foldl (fun acc par => (acc + par.length) % 2 ^ 32) 0

/-- The number of bytes `DoQuery` allocates: `new char[req.query.q.length() +
(paramlen*2)]`, the product being taken in `unsigned int`. -/
def queryBufferSize (req : SQLrequest) : Nat :=
  req.query.q.length + (paramlen req.query.p * 2) % 2 ^ 32

/-- The writes of the substitution loop of `DoQuery` into the buffer: `qe` is the offset of
`queryend` and `ext` one more than the highest offset written so far. A copied character
is written at `qe`; `PQescapeStringConn` writes the escaped parameter and a terminating
NUL from `qe` on, and `queryend` advances by the length of the escaped text. -/
def writeLoop (esc : List Char → List Char) :
    List Char → List (List Char) → Nat → Nat → Nat × Nat
  | [], _, qe, ext => (qe, ext)
  | c :: cs, p, qe, ext =>
    if c = '?' then
      match p with
      | par :: rest =>
        writeLoop esc cs rest (qe + (esc par).length) (max ext (qe + (esc par).length + 1))
      | [] => (qe, ext)
    else
      writeLoop esc cs p (qe + 1) (max ext (qe + 1))

/-- The number of bytes of the buffer `DoQuery` writes, from its start to the highest
offset written: the loop, then `*queryend = 0`. -/
def bytesWritten (esc : List Char → List Char) (req : SQLrequest) : Nat :=
  max (writeLoop esc req.query.q req.query.p 0 0).2
    ((writeLoop esc req.query.q req.query.p 0 0).1 + 1)

/-! ## The connection-info string -/

/-- What `str()` returns for a `std::ostringstream` constructed from the string `initial`
with the default open mode, after `written` has been inserted with `<<`: the stream's
buffer starts as `initial` with the put position at its beginning, so the insertions
overwrite it from the start and what lies beyond them is kept. -/
def ostringstreamStr (initial written : List Char) : List Char :=
  written ++ initial.drop written.length

/-- The characters `SQLConn::MkInfoStr` inserts into `conninfo`, in order. -/
def MkInfoInserted (c : SQLConn) : List Char :=
  (if c.dbhost.length ≠ 0 then " hostaddr = '".toList ++ c.dbhost ++ "'".toList else [])
  ++ (if c.dbport ≠ 0 then " port = '".toList ++ (Nat.repr c.dbport).toList ++ "'".toList
      else [])
  ++ (if c.dbname.length ≠ 0 then " dbname = '".toList ++ c.dbname ++ "'".toList else [])
  ++ (if c.dbuser.length ≠ 0 then " user = '".toList ++ c.dbuser ++ "'".toList else [])
  ++ (if c.dbpass.length ≠ 0 then " password = '".toList ++ c.dbpass ++ "'".toList else [])
  ++ (if c.ssl = true then " sslmode = 'require'".toList else [])

/-- `SQLConn::MkInfoStr`: `std::ostringstream conninfo("connect_timeout = '2'");`, the
insertions, `return conninfo.str();`. -/
def MkInfoStr (c : SQLConn) : List Char :=
  ostringstreamStr "connect_timeout = '2'".toList (MkInfoInserted c)

/-! ## PgSQLresult -/

/-- Modelled from the spec: `SQLfield` of `m_sqlv2.h`, the value bytes and the null flag. -/
abbrev SQLfield := List Char × Bool

/-- Modelled from the spec: `SQLfieldMap` of `m_sqlv2.h`, the name-keyed row: a map from
column name to field, as the list of its entries. It holds at most one entry per key. -/
abbrev SQLfieldMap := List (List Char × SQLfield)

/-- Insertion into a `SQLfieldMap` (`std::map::insert`): a key already present keeps
its entry. -/
def SQLfieldMap.insert (m : SQLfieldMap) (e : List Char × SQLfield) : SQLfieldMap :=
  if m.any (fun x => x.1 == e.1) then m else m ++ [e]

/-- The members `res` and `currentrow` of `PgSQLresult`. -/
structure PgSQLresult where
  res : PGresult
  currentrow : Nat
deriving DecidableEq, Repr

/-- `PQntuples`. -/
def PQntuples (res : PGresult) : Nat := res.tuples.length

/-- `PQnfields`. -/
def PQnfields (res : PGresult) : Nat := res.fnames.length

/-- `PQfname`: the column name, `NULL` when the column number is out of range. -/
def PQfname (res : PGresult) (column : Nat) : Option (List Char) := res.fnames[column]?

/-- `PQgetvalue` with `PQgetlength` and `PQgetisnull`: the value bytes and null flag of a
field, a null pointer when the row or column number is out of range. -/
def PQgetvalue (res : PGresult) (row column : Nat) : Option (List Char × Bool) :=
  (res.tuples[row]?).bind (fun t => t[column]?)

namespace PgSQLresult

/-- The constructor `PgSQLresult(self, to, id, result)`: `currentrow(0)`. -/
def new (result : PGresult) : PgSQLresult := ⟨result, 0⟩

/-- `PgSQLresult::Rows`. -/
def Rows (o : PgSQLresult) : Nat := PQntuples o.res

/-- `PgSQLresult::Cols`. -/
def Cols (o : PgSQLresult) : Nat := PQnfields o.res

/-- `PgSQLresult::ColName`: the name, or the empty string for a null pointer. -/
def ColName (o : PgSQLresult) (column : Nat) : List Char :=
  (PQfname o.res column).getD []

/-- `PgSQLresult::GetValue`; `none` is the exception `SQLbadColName` thrown on a null
pointer. -/
def GetValue (o : PgSQLresult) (row column : Nat) : Option SQLfield :=
  PQgetvalue o.res row column

/-- The loop `for(int i = 0; i < cols; i++) fieldlist->push_back(GetValue(currentrow,
i));` over the column numbers still to visit. -/
def listLoop (o : PgSQLresult) : List Nat → List SQLfield → Option (List SQLfield)
  | [], fl => some fl
  | i :: is, fl =>
    match o.GetValue o.currentrow i with
    | Option.none => Option.none
    | some v => listLoop o is (fl ++ [v])

/-- `PgSQLresult::GetRow`: the list returned and the object afterwards. -/
def GetRow (o : PgSQLresult) : Option (List SQLfield × PgSQLresult) :=
  if o.currentrow < PQntuples o.res then
    (listLoop o (List.range (PQnfields o.res)) []).map
      (fun fl => (fl, { o with currentrow := o.currentrow + 1 }))
  else
    some ([], o)

/-- The loop `for(int i = 0; i < cols; i++) fieldmap->insert(std::make_pair(ColName(i),
GetValue(currentrow, i)));`. -/
def mapLoop (o : PgSQLresult) : List Nat → SQLfieldMap → Option SQLfieldMap
  | [], fm => some fm
  | i :: is, fm =>
    match o.GetValue o.currentrow i with
    | Option.none => Option.none
    | some v => mapLoop o is (SQLfieldMap.insert fm (o.ColName i, v))

/-- `PgSQLresult::GetRowMap`: the map returned and the object afterwards. -/
def GetRowMap (o : PgSQLresult) : Option (SQLfieldMap × PgSQLresult) :=
  if o.currentrow < PQntuples o.res then
    (mapLoop o (List.range (PQnfields o.res)) []).map
      (fun fm => (fm, { o with currentrow := o.currentrow + 1 }))
  else
    some ([], o)

/-- The lists `n` successive calls of `GetRow` return, and the object afterwards. -/
def GetRows : Nat → PgSQLresult → Option (List (List SQLfield) × PgSQLresult)
  | 0, o => some ([], o)
  | n + 1, o =>
    match o.GetRow with
    | Option.none => Option.none
    | some (fl, o1) => (GetRows n o1).map (fun r => (fl :: r.1, r.2))

end PgSQLresult

/-- A `PGresult` as the driver builds it: every row has one field per column. -/
def PGresult.WellFormed (res : PGresult) : Prop :=
  ∀ t ∈ res.tuples, t.length = res.fnames.length

/-! ## Submission -/

namespace ModulePgSQL

/-- `ModulePgSQL::NewID`; `currid` is an `unsigned long` of `w` bits. -/
def NewID (w : Nat) (m : ModulePgSQL) : Nat × ModulePgSQL :=
  let cur := if (m.currid + 1) % 2 ^ w = 0 then (m.currid + 1) % 2 ^ w else m.currid
  let next := (cur + 1) % 2 ^ w
  (next, { m with currid := next })

/-- Assignment through the pointer `connections.find(dbid)` gave: the entry found is
replaced. -/
def setConn : List (List Char × SQLConn) → List Char → SQLConn → List (List Char × SQLConn)
  | [], _, _ => []
  | e :: es, dbid, c => if e.1 = dbid then (e.1, c) :: es else e :: setConn es dbid c

/-- `ModulePgSQL::OnRequest` for a request whose `GetData()` is `data`: what is returned
(`some SQLSUCCESS` for `sqlsuccess`, `none` for `NULL`), the request as the call leaves
it and the module afterwards. `SQLREQID` and `SQLSUCCESS` are the constants of
`m_sqlv2.h`. The outer `none` is the undefined `front()`. -/
def OnRequest (w : Nat) (esc : List Char → List Char) (a : Answers)
    (SQLREQID SQLSUCCESS : List Char) (data : List Char) (req : SQLrequest)
    (m : ModulePgSQL) : Option (Option (List Char) × SQLrequest × ModulePgSQL) :=
  if data = SQLREQID then
    match m.connections.lookup req.dbid with
    | some conn =>
      let ident := NewID w m
      let req1 : SQLrequest := { req with id := ident.1 }
      match conn.Query esc a req1 with
      | Option.none => Option.none
      | some (err, conn1) =>
        some (if err.id = SQLerrorNum.NO_ERROR then some SQLSUCCESS else Option.none,
          { req1 with error := err },
          { ident.2 with connections := setConn ident.2.connections req.dbid conn1 })
    | Option.none =>
      some (Option.none, { req with error := { req.error with id := SQLerrorNum.BAD_DBID } }, m)
  else
    some (Option.none, req, m)

end ModulePgSQL

/-- The pin of a queue is consistent: a pinned deque is not empty. -/
def QueryQueue.PinOK (qq : QueryQueue) : Prop :=
  (qq.which = Which.PRI → qq.priority ≠ []) ∧ (qq.which = Which.NOR → qq.normal ≠ [])

/-- A call made on a `QueryQueue` through its public members, `PurgeModule` included. -/
inductive QCall where
  | push (q : SQLrequest)
  | front
  | pop
  | purge (mod : Option Nat)
deriving DecidableEq, Repr

namespace QueryQueue

/-- One call on the queue and the queue afterwards. `front()` is called as its callers in
`SQLConn` call it, after a check of `totalsize()`: on an empty queue the call is not made.
`none` is undefined behaviour, after which there is no state. -/
def call (qq : QueryQueue) : QCall → Option QueryQueue
  | QCall.push q => some (qq.push q)
  | QCall.front => if qq.totalsize = 0 then some qq else qq.front.map (fun r => r.2)
  | QCall.pop => some qq.pop
  | QCall.purge mod => qq.PurgeModule mod

/-- A sequence of calls, in order. -/
def calls : List QCall → QueryQueue → Option QueryQueue
  | [], qq => some qq
  | o :: os, qq => (qq.call o).bind (calls os)

end QueryQueue

/-! ## Sample values -/

/-- A request with the given id, priority flag, source, template and parameters. -/
def mkRequest (id : Nat) (pri : Bool) (src : Option Nat) (q : List Char)
    (p : List (List Char)) : SQLrequest :=
  { query := ⟨q, p⟩, dbid := [], pri := pri, id := id, error := SQLerror.none, source := src }

/-- A driver that accepts every query and is still busy with it. -/
def driverBusy : Answers :=
  { sendOk := true, errmsg := [], consumeOk := true, busy := true, results := [] }

/-- A driver that accepts every query and has its one result ready at once. -/
def driverDone : Answers :=
  { sendOk := true, errmsg := [], consumeOk := true, busy := false, results := [⟨[], []⟩] }

/-- A connection as constructed, to a literal address. -/
def sampleConn : SQLConn :=
  SQLConn.init "127.0.0.1".toList 5432 "db".toList "user".toList "pw".toList false

/-- The sample connection once the handshake is over (`DoPoll` sets `status = WWRITE`). -/
def readyConn : SQLConn := { sampleConn with status := SQLstatus.WWRITE }

/-- The sample connection after request 1 has been submitted through `Query` and accepted
by the driver. -/
def inFlightConn : SQLConn :=
  { readyConn with
    qinprog := true, sql := ⟨1⟩,
    queue := ⟨[], [mkRequest 1 false (some 5) "Q1".toList []], Which.NOR⟩,
    trace := [Event.send 1 "Q1".toList true 0] }

/-- An escaping routine for the samples: the parameter between angle brackets. -/
def sampleEsc (p : List Char) : List Char := '<' :: p ++ ['>']

/-- Scenario A: on the connection as constructed (not yet ready) the non-priority request
1 and then the priority request 2 are submitted through `Query`; then `DoPoll` sees the
handshake finish and sets `status = WWRITE`. -/
def scenarioA : Option SQLConn :=
  (SQLConn.Query sampleEsc driverBusy (mkRequest 1 false (some 5) "Q1".toList []) sampleConn).bind
    (fun r1 =>
      (SQLConn.Query sampleEsc driverBusy (mkRequest 2 true (some 5) "Q2".toList []) r1.2).map
        (fun r2 => { r2.2 with status := SQLstatus.WWRITE }))

/-- Scenario C: request 1 (module 7) is active at the head of the normal deque, request 2
(module 9) and request 3 (module 7) are queued behind it. -/
def scenarioC : QueryQueue :=
  ⟨[], [mkRequest 1 false (some 7) [] [], mkRequest 2 false (some 9) [] [],
        mkRequest 3 false (some 7) [] []], Which.NOR⟩

/-- A module with one connection whose queue holds a request of module 7 that has not
been dispatched. -/
def sampleModule : ModulePgSQL :=
  { connections := [("db".toList,
      { readyConn with queue := ⟨[], [mkRequest 1 false (some 7) [] []], Which.NON⟩ })],
    currid := 1 }

/-- A driver that rejects every query text and has nothing to report. -/
def driverReject : Answers :=
  { sendOk := false, errmsg := "syntax error".toList, consumeOk := true, busy := false,
    results := [] }

/-- Two results a driver has buffered for a query text of two statements. -/
def twoResults : List PGresult :=
  [⟨["a".toList], [[("1".toList, false)]]⟩, ⟨["b".toList], [[("2".toList, false)]]⟩]

/-- A module whose one connection, `db`, is still connecting (as constructed). -/
def connectingModule : ModulePgSQL :=
  { connections := [("db".toList, sampleConn)], currid := 0 }

/-- A request for the connection `db`, not yet numbered. -/
def dbRequest : SQLrequest :=
  { query := ⟨"Q".toList, []⟩, dbid := "db".toList, pri := false, id := 0,
    error := SQLerror.none, source := some 5 }

/-- A request for a connection that is not configured. -/
def ghostRequest : SQLrequest :=
  { query := ⟨"Q".toList, []⟩, dbid := "ghost-db".toList, pri := false, id := 0,
    error := SQLerror.none, source := some 5 }

/-- A result of two rows and two columns. -/
def sampleResult : PGresult :=
  ⟨["nick".toList, "host".toList],
   [[("a".toList, false), ("x".toList, false)], [("b".toList, false), ([], true)]]⟩

/-- A result of one row whose two columns have the same name, as a join gives. -/
def sameNameResult : PGresult :=
  ⟨["id".toList, "id".toList], [[("1".toList, false), ("2".toList, false)]]⟩

/-- An escaping routine as the driver's: apostrophes (code 39) and backslashes (code 92)
are doubled, so the escaped text is at most twice as long as the parameter. -/
def pgEscape (p : List Char) : List Char :=
  p.flatMap (fun ch => if ch = Char.ofNat 39 ∨ ch = Char.ofNat 92 then [ch, ch] else [ch])

/-- A connection with no field configured. -/
def bareConn : SQLConn := SQLConn.init [] 0 [] [] [] false

/-- Calls that queue the requests 1 and 3 of module 7 and 2 and 4 of module 9, make
request 1 active and then purge module 7. -/
def sampleCalls : List QCall :=
  [QCall.push (mkRequest 1 false (some 7) [] []), QCall.push (mkRequest 2 false (some 9) [] []),
   QCall.push (mkRequest 3 false (some 7) [] []), QCall.push (mkRequest 4 false (some 9) [] []),
   QCall.front, QCall.purge (some 7)]

/-- The queue the sample calls leave: request 1 active with its source cleared, request 3
erased. -/
def purgedQueue : QueryQueue :=
  ⟨[], [mkRequest 1 false Option.none [] [], mkRequest 2 false (some 9) [] [],
        mkRequest 4 false (some 9) [] []], Which.NOR⟩

/-- The connection as constructed after request 1 has been submitted through `Query`:
the request is queued and pinned, nothing was sent. -/
def queuedWhileConnecting : SQLConn :=
  { sampleConn with queue := ⟨[], [mkRequest 1 false (some 5) "Q1".toList []], Which.NOR⟩ }

/-- A request whose one parameter contains a question mark. -/
def retryRequest : SQLrequest := mkRequest 1 false (some 5) "SELECT ?".toList ["a?b".toList]

/-- The ready sample connection with that request queued and none active. -/
def retryConn : SQLConn := { readyConn with queue := ⟨[], [retryRequest], Which.NON⟩ }

/-- A driver that accepts every query and has buffered the two results of a query text
of two statements. -/
def driverTwo : Answers :=
  { sendOk := true, errmsg := [], consumeOk := true, busy := false, results := twoResults }

/-! ## The queue: stable front, fresh choice after pop, FIFO -/

namespace QueryQueue

theorem active_of_front {qq qq1 : QueryQueue} {r : SQLrequest}
    (h : qq.front = some (r, qq1)) : Active qq1 r := by
  obtain ⟨p, n, w⟩ := qq
  unfold front at h
  cases w <;> cases p <;> cases n <;>
    simp at h <;>
    (obtain ⟨h1, h2⟩ := h; subst h1; subst h2; simp [Active])

theorem front_of_active {qq : QueryQueue} {r : SQLrequest} (h : Active qq r) :
    qq.front = some (r, qq) := by
  obtain ⟨p, n, w⟩ := qq
  rcases h with ⟨hw, hr⟩ | ⟨hw, hr⟩
  · simp only at hw hr
    subst hw
    simp [front, hr]
  · simp only at hw hr
    subst hw
    simp [front, hr]

theorem active_push {qq : QueryQueue} {r : SQLrequest} (q : SQLrequest) (h : Active qq r) :
    Active (qq.push q) r := by
  obtain ⟨p, n, w⟩ := qq
  unfold push
  rcases h with ⟨hw, hr⟩ | ⟨hw, hr⟩
  · left
    cases p with
    | nil => simp at hr
    | cons x xs => split_ifs <;> simp_all
  · right
    cases n with
    | nil => simp at hr
    | cons x xs => split_ifs <;> simp_all

theorem totalsize_ne_zero_of_active {qq : QueryQueue} {r : SQLrequest} (h : Active qq r) :
    qq.totalsize ≠ 0 := by
  obtain ⟨p, n, w⟩ := qq
  rcases h with ⟨_, hr⟩ | ⟨_, hr⟩
  · cases p with
    | nil => simp at hr
    | cons x xs => simp [totalsize]
  · cases n with
    | nil => simp at hr
    | cons x xs => simp [totalsize]

theorem run_of_active {r : SQLrequest} (ops : List QOp) :
    ∀ (qq : QueryQueue) (log : List SQLrequest), Active qq r → QOp.pop ∉ ops →
      ∃ qq2, run ops (qq, log) = some (qq2, log ++ List.replicate (ops.count QOp.front) r)
        ∧ Active qq2 r := by
  induction ops with
  | nil => intro qq log h _; exact ⟨qq, by simp [run], h⟩
  | cons o os ih =>
    intro qq log h hpop
    have hos : QOp.pop ∉ os := fun hm => hpop (List.mem_cons_of_mem _ hm)
    cases o with
    | push q =>
      obtain ⟨qq2, h1, h2⟩ := ih (qq.push q) log (active_push q h) hos
      refine ⟨qq2, ?_, h2⟩
      simp [run, step, h1]
    | front =>
      obtain ⟨qq2, h1, h2⟩ := ih qq (log ++ [r]) h hos
      refine ⟨qq2, ?_, h2⟩
      simp [run, step, totalsize_ne_zero_of_active h, front_of_active h, h1,
        List.replicate_succ]
    | pop => exact absurd (List.mem_cons_self _ _) hpop

/-- C1: once `front()` has returned a request `r`, then whatever requests are pushed
afterwards, priority or not, and however the later calls of `front()` are interleaved with
the pushes, as long as there is no `pop()` every later `front()` is defined and returns `r`
(the list of returned requests consists of `r` only), and so does one more `front()` made
after all of them. -/
theorem front_stable_until_pop (qq qq1 : QueryQueue) (r : SQLrequest) (ops : List QOp)
    (h : qq.front = some (r, qq1)) (hpop : QOp.pop ∉ ops) :
    ∃ qq2, run ops (qq1, []) = some (qq2, List.replicate (ops.count QOp.front) r)
      ∧ qq2.front = some (r, qq2) := by
  obtain ⟨qq2, h1, h2⟩ := run_of_active ops qq1 [] (active_of_front h) hpop
  exact ⟨qq2, by simpa using h1, front_of_active h2⟩

/-- Witness of C1: the normal request 1 is active, then a priority request and a normal
request are pushed with two calls of `front()` in between: both return request 1. -/
theorem front_stable_until_pop_witness :
    ∃ qq2, run [QOp.push (mkRequest 2 true (some 5) [] []), QOp.front,
                QOp.push (mkRequest 3 false (some 5) [] []), QOp.front]
              (⟨[], [mkRequest 1 false (some 5) [] []], Which.NOR⟩, [])
        = some (qq2, List.replicate 2 (mkRequest 1 false (some 5) [] []))
      ∧ qq2.front = some (mkRequest 1 false (some 5) [] [], qq2) :=
  front_stable_until_pop ⟨[], [mkRequest 1 false (some 5) [] []], Which.NON⟩
    ⟨[], [mkRequest 1 false (some 5) [] []], Which.NOR⟩ (mkRequest 1 false (some 5) [] [])
    [QOp.push (mkRequest 2 true (some 5) [] []), QOp.front,
     QOp.push (mkRequest 3 false (some 5) [] []), QOp.front]
    (by decide) (by decide)

end QueryQueue

namespace QueryQueue

theorem which_pop (qq : QueryQueue) : qq.pop.which = Which.NON := by
  unfold pop
  split_ifs <;> rfl

/-- C9: after `pop()` the pin is cleared, and the next `front()` chooses afresh: the head
of the priority deque whenever that deque is not empty, the head of the normal deque when
the priority deque is empty and the normal one is not; and it never chooses from the
normal deque while the priority deque holds a request. This holds for every queue state,
so whichever deque the popped request came from. -/
theorem front_after_pop_fresh (qq : QueryQueue) :
    qq.pop.which = Which.NON ∧
    (∀ x xs, qq.pop.priority = x :: xs →
      qq.pop.front = some (x, { qq.pop with which := Which.PRI })) ∧
    (∀ y ys, qq.pop.priority = [] → qq.pop.normal = y :: ys →
      qq.pop.front = some (y, { qq.pop with which := Which.NOR })) ∧
    (∀ r qq1, qq.pop.front = some (r, qq1) → qq1.which = Which.NOR →
      qq.pop.priority = [] ∧ qq.pop.normal.head? = some r) := by
  have hw := which_pop qq
  generalize qq.pop = q1 at hw ⊢
  obtain ⟨p, n, w⟩ := q1
  simp only at hw
  subst hw
  refine ⟨rfl, ?_, ?_, ?_⟩
  · intro x xs hp
    simp only at hp
    subst hp
    simp [front]
  · intro y ys hp hn
    simp only at hp hn
    subst hp
    subst hn
    simp [front]
  · intro r qq1 hf hq
    cases p <;> cases n <;> simp [front] at hf
    · obtain ⟨h1, h2⟩ := hf
      subst h1
      simp
    · obtain ⟨_, h2⟩ := hf
      subst h2
      simp at hq
    · obtain ⟨_, h2⟩ := hf
      subst h2
      simp at hq

end QueryQueue

/-! ## The query text -/

theorem buildQuery_out (esc : List Char → List Char) (t : List Char) :
    ∀ (ps : List (List Char)) (out : List Char),
      buildQuery esc t ps out
        = (out ++ (buildQuery esc t ps []).1, (buildQuery esc t ps []).2) := by
  induction t with
  | nil => intro ps out; simp [buildQuery]
  | cons c cs ih =>
    intro ps out
    by_cases hc : c = '?'
    · cases ps with
      | nil => simp [buildQuery, hc]
      | cons p rest =>
        simp only [buildQuery, hc, if_true]
        rw [ih rest (out ++ esc p), ih rest ([] ++ esc p)]
        simp
    · simp only [buildQuery, hc, if_false]
      rw [ih ps (out ++ [c]), ih ps ([] ++ [c])]
      simp

theorem substituted_nil (esc : List Char → List Char) (ps : List (List Char)) :
    substituted esc [] ps = [] := by
  simp [substituted]

theorem substituted_cons_placeholder (esc : List Char → List Char) (cs : List Char)
    (p : List Char) (rest : List (List Char)) :
    substituted esc ('?' :: cs) (p :: rest) = esc p ++ substituted esc cs rest := by
  simp [substituted, List.range_succ_eq_map, List.map_map, Function.comp_def]

theorem substituted_cons_other (esc : List Char → List Char) (c : Char) (cs : List Char)
    (ps : List (List Char)) (hc : c ≠ '?') :
    substituted esc (c :: cs) ps = c :: substituted esc cs ps := by
  have hc2 : ∀ l : List Char, List.count '?' (c :: l) = List.count '?' l := by
    intro l
    rw [List.count_cons]
    have : (c == '?') = false := by
      cases h : (c == '?')
      · rfl
      · exact absurd (eq_of_beq h) hc
    simp [this]
  simp [substituted, List.range_succ_eq_map, List.map_map, Function.comp_def, hc, hc2]

theorem buildQuery_enough (esc : List Char → List Char) (t : List Char) :
    ∀ ps : List (List Char), t.count '?' ≤ ps.length →
      (buildQuery esc t ps []).1 = substituted esc t ps := by
  induction t with
  | nil => intro ps _; simp [buildQuery, substituted_nil]
  | cons c cs ih =>
    intro ps h
    by_cases hc : c = '?'
    · subst hc
      cases ps with
      | nil => simp at h
      | cons p rest =>
        simp only [List.count_cons_self, List.length_cons, Nat.add_le_add_iff_right] at h
        simp only [buildQuery, if_true]
        rw [buildQuery_out, substituted_cons_placeholder, ih rest h]
        simp
    · have h1 : cs.count '?' ≤ ps.length := by
        simpa [List.count_cons, hc] using h
      simp only [buildQuery, hc, if_false]
      rw [buildQuery_out, substituted_cons_other esc c cs ps hc, ih ps h1]
      simp

theorem buildQuery_short (esc : List Char → List Char) (t : List Char) :
    ∀ ps : List (List Char), ps.length < t.count '?' →
      (buildQuery esc t ps []).1 = substituted esc (beforePlaceholder ps.length t) ps := by
  induction t with
  | nil => intro ps h; simp at h
  | cons c cs ih =>
    intro ps h
    by_cases hc : c = '?'
    · subst hc
      cases ps with
      | nil => simp [buildQuery, beforePlaceholder, substituted_nil]
      | cons p rest =>
        simp only [List.count_cons_self, List.length_cons, Nat.add_lt_add_iff_right] at h
        simp only [buildQuery, if_true, List.length_cons, beforePlaceholder]
        rw [buildQuery_out, substituted_cons_placeholder, ih rest h]
        simp
    · have h1 : ps.length < cs.count '?' := by
        simpa [List.count_cons, hc] using h
      simp only [buildQuery, hc, if_false, beforePlaceholder]
      rw [buildQuery_out, substituted_cons_other esc c _ ps hc, ih ps h1]
      simp

theorem beforePlaceholder_spec (t : List Char) :
    ∀ m : Nat, m < t.count '?' →
      (beforePlaceholder m t).count '?' = m ∧
      ∃ rest, t = beforePlaceholder m t ++ '?' :: rest := by
  induction t with
  | nil => intro m h; simp at h
  | cons c cs ih =>
    intro m h
    by_cases hc : c = '?'
    · subst hc
      cases m with
      | zero => exact ⟨by simp [beforePlaceholder], cs, by simp [beforePlaceholder]⟩
      | succ n =>
        simp only [List.count_cons_self, Nat.add_lt_add_iff_right] at h
        obtain ⟨h1, rest, h2⟩ := ih n h
        refine ⟨by simp [beforePlaceholder, h1], rest, ?_⟩
        simp only [beforePlaceholder, if_true, List.cons_append]
        rw [← h2]
    · have h1 : m < cs.count '?' := by
        simpa [List.count_cons, hc] using h
      obtain ⟨h2, rest, h3⟩ := ih m h1
      refine ⟨by simp [beforePlaceholder, hc, List.count_cons, h2], rest, ?_⟩
      simp only [beforePlaceholder, hc, if_false, List.cons_append]
      rw [← h3]

namespace SQLConn

theorem trace_DoQuery (esc : List Char → List Char) (a : Answers) (req : SQLrequest)
    (c : SQLConn) (hs : c.status = SQLstatus.WREAD ∨ c.status = SQLstatus.WWRITE)
    (hq : c.qinprog = false) :
    (DoQuery esc a req c).2.2.trace
      = c.trace ++ [Event.send req.id (buildQuery esc req.query.q req.query.p []).1
          a.sendOk c.sql.pending] := by
  unfold DoQuery
  rw [if_pos hs, if_pos hq]
  cases h : a.sendOk <;> simp

/-- C2: when the template holds no more `?` than there are parameters, the text `DoQuery`
builds and passes to `PQsendQuery` (on a ready connection with no query in progress) is
the template in which the `?` with `k` others before it is replaced by the escaped
parameter of index `k`, every other character being kept in its place. -/
theorem DoQuery_substitutes_every_placeholder (esc : List Char → List Char) (a : Answers)
    (req : SQLrequest) (c : SQLConn)
    (hs : c.status = SQLstatus.WREAD ∨ c.status = SQLstatus.WWRITE)
    (hq : c.qinprog = false) (hn : req.query.q.count '?' ≤ req.query.p.length) :
    (DoQuery esc a req c).2.2.trace
      = c.trace ++ [Event.send req.id (substituted esc req.query.q req.query.p)
          a.sendOk c.sql.pending] := by
  rw [trace_DoQuery esc a req c hs hq, buildQuery_enough esc _ _ hn]

/-- Witness of C2: two placeholders, two parameters. -/
theorem DoQuery_substitutes_every_placeholder_witness :
    (DoQuery sampleEsc driverBusy
        (mkRequest 1 false (some 5) "a=? b=?".toList ["x".toList, "y".toList])
        readyConn).2.2.trace
      = readyConn.trace ++ [Event.send 1 (substituted sampleEsc "a=? b=?".toList
          ["x".toList, "y".toList]) true 0]
    ∧ substituted sampleEsc "a=? b=?".toList ["x".toList, "y".toList]
      = "a=<x> b=<y>".toList :=
  ⟨DoQuery_substitutes_every_placeholder sampleEsc driverBusy
      (mkRequest 1 false (some 5) "a=? b=?".toList ["x".toList, "y".toList]) readyConn
      (by decide) (by decide) (by decide),
   by decide⟩

/-- C3 as stated fails: with the template `a?b?c` and the single parameter `x`, the text
passed to the driver is `a<x>b`; the rule as stated gives `a<x>b?c`. -/
theorem DoQuery_drops_rest_of_template :
    (DoQuery sampleEsc driverBusy
        (mkRequest 1 false (some 5) "a?b?c".toList ["x".toList]) readyConn).2.2.trace
      = [Event.send 1 "a<x>b".toList true 0]
    ∧ substitutedThenRest sampleEsc "a?b?c".toList ["x".toList] = "a<x>b?c".toList
    ∧ (DoQuery sampleEsc driverBusy
        (mkRequest 1 false (some 5) "a?b?c".toList ["x".toList]) readyConn).2.2.trace
      ≠ [Event.send 1 (substitutedThenRest sampleEsc "a?b?c".toList ["x".toList]) true 0] := by
  decide

/-- C3, amended: when the template holds more `?` than there are parameters (`M` of
them), the text `DoQuery` builds and passes to `PQsendQuery` is the prefix of the template
that stands before its `(M+1)`-th `?`, with the `M` placeholders of that prefix replaced in
order by the escaped parameters, and nothing more: the loop is left at that `?`. The prefix
holds exactly `M` placeholders and the template continues after it with a `?`. -/
theorem DoQuery_stops_at_first_unmatched_placeholder (esc : List Char → List Char)
    (a : Answers) (req : SQLrequest) (c : SQLConn)
    (hs : c.status = SQLstatus.WREAD ∨ c.status = SQLstatus.WWRITE)
    (hq : c.qinprog = false) (hn : req.query.p.length < req.query.q.count '?') :
    (DoQuery esc a req c).2.2.trace
      = c.trace ++ [Event.send req.id
          (substituted esc (beforePlaceholder req.query.p.length req.query.q) req.query.p)
          a.sendOk c.sql.pending]
    ∧ (beforePlaceholder req.query.p.length req.query.q).count '?' = req.query.p.length
    ∧ ∃ rest, req.query.q
        = beforePlaceholder req.query.p.length req.query.q ++ '?' :: rest := by
  refine ⟨?_, beforePlaceholder_spec _ _ hn⟩
  rw [trace_DoQuery esc a req c hs hq, buildQuery_short esc _ _ hn]

/-- Witness of the amended C3: two placeholders, one parameter. -/
theorem DoQuery_stops_at_first_unmatched_placeholder_witness :
    (DoQuery sampleEsc driverBusy
        (mkRequest 1 false (some 5) "a?b?c".toList ["x".toList]) readyConn).2.2.trace
      = readyConn.trace ++ [Event.send 1
          (substituted sampleEsc (beforePlaceholder 1 "a?b?c".toList) ["x".toList]) true 0]
    ∧ (beforePlaceholder 1 "a?b?c".toList).count '?' = 1
    ∧ ∃ rest, "a?b?c".toList = beforePlaceholder 1 "a?b?c".toList ++ '?' :: rest :=
  DoQuery_stops_at_first_unmatched_placeholder sampleEsc driverBusy
    (mkRequest 1 false (some 5) "a?b?c".toList ["x".toList]) readyConn
    (by decide) (by decide) (by decide)

end SQLConn

/-! ## Purging the requests of a module -/

namespace QueryQueue

/-- C5 at a failing input: request 1 (module 9) is active, requests 2 and 3 (module 7) are
adjacent behind it, request 4 (module 9) is last. `PurgeModule` for module 7 erases request
2, steps over request 3 and leaves it queued with its source still set to module 7. With
no request active and three adjacent requests of module 7, the first is pinned and has its
source cleared, the second is erased and the third is left as it was. -/
theorem PurgeModule_skips_after_erase :
    PurgeModule (some 7)
        ⟨[], [mkRequest 1 false (some 9) [] [], mkRequest 2 false (some 7) [] [],
              mkRequest 3 false (some 7) [] [], mkRequest 4 false (some 9) [] []], Which.NOR⟩
      = some ⟨[], [mkRequest 1 false (some 9) [] [], mkRequest 3 false (some 7) [] [],
              mkRequest 4 false (some 9) [] []], Which.NOR⟩
    ∧ PurgeModule (some 7)
        ⟨[], [mkRequest 1 false (some 7) [] [], mkRequest 2 false (some 7) [] [],
              mkRequest 3 false (some 7) [] []], Which.NON⟩
      = some ⟨[], [mkRequest 1 false Option.none [] [], mkRequest 3 false (some 7) [] []],
              Which.NOR⟩ := by
  decide

/-- C6 at its own scenario: request 1 (module 7) active, request 2 (module 9) and request
3 (module 7) queued behind it. `PurgeModule` for module 7 clears the source of request 1,
keeps request 2, erases request 3, which is the last element, and then moves the iterator
that `erase` returned (`end()`) one step further: the call has no defined result. The
same purge is defined when a request of another module stands last. -/
theorem PurgeModule_undefined_when_last_erased :
    PurgeModule (some 7) scenarioC = Option.none
    ∧ PurgeModule (some 7)
        ⟨[], [mkRequest 1 false (some 7) [] [], mkRequest 3 false (some 7) [] [],
              mkRequest 2 false (some 9) [] []], Which.NOR⟩
      = some ⟨[], [mkRequest 1 false Option.none [] [], mkRequest 2 false (some 9) [] []],
              Which.NOR⟩ := by
  decide

end QueryQueue

namespace ModulePgSQL

/-- C7 fails on the code: the loop of `ModulePgSQL::OnUnloadModule` has an empty body, so
the call changes nothing, for every module and every state; in the sample state the
request of module 7, which has not been dispatched, is still queued with its source set
after `OnUnloadModule` for module 7. -/
theorem OnUnloadModule_changes_nothing :
    (∀ (mod : Option Nat) (name : List Char) (m : ModulePgSQL),
      OnUnloadModule mod name m = m)
    ∧ (OnUnloadModule (some 7) "m_test.so".toList sampleModule).connections.map
        (fun e => e.2.queue.normal.map (fun r => (r.id, r.source)))
      = [[(1, some 7)]] := by
  have h : ∀ (l : List (List Char × SQLConn)) (m : ModulePgSQL),
      l.foldl (fun acc _ => acc) m = m := by
    intro l
    induction l with
    | nil => intro m; rfl
    | cons x xs ih => intro m; exact ih m
  refine ⟨fun mod name m => h _ m, ?_⟩
  rw [show OnUnloadModule (some 7) "m_test.so".toList sampleModule = sampleModule from h _ _]
  decide

end ModulePgSQL

/-! ## Priority at dispatch -/

namespace SQLConn

/-- C8 at scenario A: after the two submissions the queue holds two requests, the priority
deque holds request 2 and the pin is on the normal deque (the first `Query` called
`front()` and `DoQuery` returned `BAD_CONN`). Once the connection is ready, a pass of
`DoConnectedPoll` submits the non-priority request 1 while the priority deque holds request
2; and with a driver that has each result ready at once the requests are submitted in the
order 1, 2. -/
theorem nonpriority_dispatched_before_priority :
    scenarioA.map (fun c => (c.queue.totalsize, c.queue.which,
        c.queue.priority.map (fun r => r.id), c.queue.normal.map (fun r => r.id)))
      = some (2, Which.NOR, [2], [1])
    ∧ (scenarioA.bind (DoConnectedPoll sampleEsc (fun _ => driverBusy))).map
        (fun r => (r.2.trace, r.2.queue.priority.map (fun q => q.id)))
      = some ([Event.send 1 "Q1".toList true 0], [2])
    ∧ (scenarioA.bind (DoConnectedPoll sampleEsc (fun _ => driverDone))).map
        (fun r => r.2.trace)
      = some [Event.send 1 "Q1".toList true 0, Event.reply 1 5 (some ⟨[], []⟩),
              Event.send 2 "Q2".toList true 0, Event.reply 2 5 (some ⟨[], []⟩)] := by
  decide

end SQLConn

/-! ## One query in flight -/

namespace SQLConn

theorem oneInFlight_DoQuery (esc : List Char → List Char) (a : Answers) (req : SQLrequest)
    (c : SQLConn) (h : OneInFlight c) : OneInFlight (DoQuery esc a req c).2.2 := by
  obtain ⟨hp, ht⟩ := h
  unfold DoQuery
  split_ifs with hs hq hok
  · have hp0 : c.sql.pending = 0 := by rw [hp, hq]; simp
    refine ⟨by simp [hp0], ?_⟩
    intro e he
    simp only [List.mem_append, List.mem_singleton] at he
    rcases he with he | he
    · exact ht e he
    · subst he
      simp [Event.overlaps, hp0]
  · have hp0 : c.sql.pending = 0 := by rw [hp, hq]; simp
    refine ⟨by simp [hp0, hq], ?_⟩
    intro e he
    simp only [List.mem_append, List.mem_singleton] at he
    rcases he with he | he
    · exact ht e he
    · subst he
      simp [Event.overlaps, hp0]
  · exact ⟨hp, ht⟩
  · exact ⟨hp, ht⟩

theorem oneInFlight_dispatch {esc : List Char → List Char} {a : Answers} {c c1 : SQLConn}
    {e : SQLerror} (h : OneInFlight c) (hd : dispatch esc a c = some (e, c1)) :
    OneInFlight c1 := by
  unfold dispatch at hd
  split_ifs at hd with hc
  · split at hd
    · exact absurd hd (by simp)
    · rename_i query qq hf
      simp only [Option.some.injEq, Prod.mk.injEq] at hd
      rw [← hd.2]
      have h1 : OneInFlight { c with queue := qq } := h
      exact oneInFlight_DoQuery esc a query _ h1
  · simp only [Option.some.injEq, Prod.mk.injEq] at hd
    rw [← hd.2]
    exact h

theorem oneInFlight_DoConnectedPollAux (esc : List Char → List Char) (drv : Nat → Answers) :
    ∀ (fuel depth : Nat) (c : SQLConn) (hf : c.queue.totalsize < fuel) (r : Bool × SQLConn),
      OneInFlight c → DoConnectedPollAux esc drv fuel depth c hf = some r →
      OneInFlight r.2 := by
  intro fuel
  induction fuel with
  | zero => intro depth c hf; exact absurd hf (Nat.not_lt_zero _)
  | succ n ih =>
    intro depth c hf r hinv hr
    unfold DoConnectedPollAux at hr
    split at hr
    · exact absurd hr (by simp)
    · rename_i e1 c1 hd
      have h1 : OneInFlight c1 := oneInFlight_dispatch hinv hd
      split_ifs at hr with hcons hbusy hq
      · simp only [Option.some.injEq] at hr
        rw [← hr]
        exact h1
      · split at hr
        · exact absurd hr (by simp)
        · rename_i query qq hfr
          dsimp only at hr
          split at hr
          · exact absurd hr (by simp)
          · rename_i b3 c3 hrec
            simp only [Option.some.injEq] at hr
            rw [← hr]
            refine ih _ _ _ (b3, c3) ?_ hrec
            obtain ⟨hp, ht⟩ := h1
            refine ⟨by simp [afterResult, hp, hq], ?_⟩
            intro e he
            simp only [afterResult, List.mem_append, List.mem_singleton] at he
            rcases he with he | he
            · exact ht e he
            · subst he
              unfold deliver
              cases query.source <;> rfl
      · simp only [Option.some.injEq] at hr
        rw [← hr]
        exact h1
      · simp only [Option.some.injEq] at hr
        rw [← hr]
        exact h1

theorem oneInFlight_of_reachable {esc : List Char → List Char} {c : SQLConn}
    (h : Reachable esc c) : OneInFlight c := by
  induction h with
  | init h p d u pwd s => exact ⟨rfl, by simp [SQLConn.init]⟩
  | status s _ ih => exact ih
  | @query c0 c1 e a req _ hq ih =>
    have h1 : OneInFlight { c0 with queue := c0.queue.push req } := ih
    exact oneInFlight_dispatch h1 hq
  | poll drv _ hp ih => exact oneInFlight_DoConnectedPollAux esc drv _ _ _ _ _ ih hp
  | doQuery a req _ ih => exact oneInFlight_DoQuery esc a req _ ih

/-- C4: in every state of a connection reachable through `Query`, `DoConnectedPoll` and
`DoQuery`, whatever the driver answers, `qinprog` is true exactly when the driver holds a
submitted query whose result has not been consumed, the driver never holds more than one
such query, and every `PQsendQuery` call made so far was made while it held none; and in
any state at all `DoQuery` makes no driver call while `qinprog` is true. -/
theorem one_query_in_flight (esc : List Char → List Char) (c : SQLConn)
    (h : Reachable esc c) :
    (c.qinprog = true ↔ c.sql.pending = 1) ∧
    (c.qinprog = false ↔ c.sql.pending = 0) ∧
    c.sql.pending ≤ 1 ∧
    (∀ id text ok n, Event.send id text ok n ∈ c.trace → n = 0) ∧
    (∀ (a : Answers) (req : SQLrequest) (c0 : SQLConn), c0.qinprog = true →
      (DoQuery esc a req c0).2.2 = c0) := by
  obtain ⟨hp, ht⟩ := oneInFlight_of_reachable h
  refine ⟨?_, ?_, ?_, ?_, ?_⟩
  · cases hq : c.qinprog <;> simp [hp, hq]
  · cases hq : c.qinprog <;> simp [hp, hq]
  · cases hq : c.qinprog <;> simp [hp, hq]
  · intro id text ok n he
    have := ht _ he
    simpa [Event.overlaps] using this
  · intro a req c0 hq
    simp [DoQuery, hq]

/-- Witness of C4: the state after one accepted submission on the ready sample connection
is reachable, has `qinprog` set, and satisfies the statement. -/
theorem one_query_in_flight_witness :
    inFlightConn.qinprog = true ∧
    ((inFlightConn.qinprog = true ↔ inFlightConn.sql.pending = 1) ∧
    (inFlightConn.qinprog = false ↔ inFlightConn.sql.pending = 0) ∧
    inFlightConn.sql.pending ≤ 1 ∧
    (∀ id text ok n, Event.send id text ok n ∈ inFlightConn.trace → n = 0) ∧
    (∀ (a : Answers) (req : SQLrequest) (c0 : SQLConn), c0.qinprog = true →
      (DoQuery sampleEsc a req c0).2.2 = c0)) :=
  ⟨rfl, one_query_in_flight sampleEsc inFlightConn
    (Reachable.query driverBusy (mkRequest 1 false (some 5) "Q1".toList [])
      (Reachable.status SQLstatus.WWRITE
        (Reachable.init "127.0.0.1".toList 5432 "db".toList "user".toList "pw".toList false))
      (show Query sampleEsc driverBusy (mkRequest 1 false (some 5) "Q1".toList [])
          { sampleConn with status := SQLstatus.WWRITE } = some (SQLerror.none, inFlightConn)
        by decide))⟩

end SQLConn

/-! ## The passes of `DoConnectedPoll` -/

namespace SQLConn

theorem DoConnectedPollAux_idle {esc : List Char → List Char} {drv : Nat → Answers}
    {fuel depth : Nat} {c c1 : SQLConn} {e : SQLerror} (h : c.queue.totalsize < fuel + 1)
    (hd : dispatch esc (drv depth) c = some (e, c1)) (hq : c1.qinprog = false) :
    DoConnectedPollAux esc drv (fuel + 1) depth c h = some ((drv depth).consumeOk, c1) := by
  rw [DoConnectedPollAux]
  split
  · rename_i hd1
    rw [hd] at hd1
    exact absurd hd1 (by simp)
  · rename_i e1 c2 hd1
    have he : (e1, c2) = (e, c1) := by
      rw [hd] at hd1
      exact (Option.some.inj hd1).symm
    obtain ⟨-, rfl⟩ := Prod.mk.inj he
    cases hc : (drv depth).consumeOk <;> cases hb : (drv depth).busy <;> simp [hq]

theorem DoConnectedPollAux_busy {esc : List Char → List Char} {drv : Nat → Answers}
    {fuel depth : Nat} {c c1 : SQLConn} {e : SQLerror} (h : c.queue.totalsize < fuel + 1)
    (hd : dispatch esc (drv depth) c = some (e, c1)) (hc : (drv depth).consumeOk = true)
    (hb : (drv depth).busy = true) :
    DoConnectedPollAux esc drv (fuel + 1) depth c h = some (true, c1) := by
  rw [DoConnectedPollAux]
  split
  · rename_i hd1
    rw [hd] at hd1
    exact absurd hd1 (by simp)
  · rename_i e1 c2 hd1
    have he : (e1, c2) = (e, c1) := by
      rw [hd] at hd1
      exact (Option.some.inj hd1).symm
    obtain ⟨-, rfl⟩ := Prod.mk.inj he
    simp [hc, hb]

theorem DoConnectedPollAux_result {esc : List Char → List Char} {drv : Nat → Answers}
    {fuel depth : Nat} {c c1 : SQLConn} {e : SQLerror} {query : SQLrequest}
    {qq : QueryQueue} (h : c.queue.totalsize < fuel + 1)
    (hd : dispatch esc (drv depth) c = some (e, c1)) (hc : (drv depth).consumeOk = true)
    (hb : (drv depth).busy = false) (hq : c1.qinprog = true)
    (hf : c1.queue.front = some (query, qq))
    (h2 : (afterResult (drv depth) query qq c1).queue.totalsize < fuel) :
    DoConnectedPollAux esc drv (fuel + 1) depth c h
      = (DoConnectedPollAux esc drv fuel (depth + 1)
          (afterResult (drv depth) query qq c1) h2).map (fun r => (true, r.2)) := by
  rw [DoConnectedPollAux]
  split
  · rename_i hd1
    rw [hd] at hd1
    exact absurd hd1 (by simp)
  · rename_i e1 c2 hd1
    have he : (e1, c2) = (e, c1) := by
      rw [hd] at hd1
      exact (Option.some.inj hd1).symm
    obtain ⟨-, rfl⟩ := Prod.mk.inj he
    simp only [hc, hb, hq, if_true, Bool.false_eq_true, if_false]
    split
    · rename_i hf1
      rw [hf] at hf1
      exact absurd hf1 (by simp)
    · rename_i query1 qq1 hf1
      have hqq : (query1, qq1) = (query, qq) := by
        rw [hf] at hf1
        exact (Option.some.inj hf1).symm
      obtain ⟨rfl, rfl⟩ := Prod.mk.inj hqq
      split <;> rename_i hrec <;> simp [hrec]

end SQLConn

/-! ## A rejected submission -/

namespace QueryQueue

theorem active_setFront {qq : QueryQueue} {query : SQLrequest} (r : SQLrequest)
    (h : Active qq query) : Active (qq.setFront r) r := by
  obtain ⟨p, n, w⟩ := qq
  rcases h with ⟨hw, hr⟩ | ⟨hw, hr⟩
  · simp only at hw hr
    subst hw
    cases p with
    | nil => simp at hr
    | cons x xs => left; simp [setFront]
  · simp only at hw hr
    subst hw
    cases n with
    | nil => simp at hr
    | cons x xs => right; simp [setFront]

theorem totalsize_ne_zero_of_front {qq qq1 : QueryQueue} {r : SQLrequest}
    (h : qq.front = some (r, qq1)) : qq.totalsize ≠ 0 := by
  rw [← totalsize_of_front h]
  exact totalsize_ne_zero_of_active (active_of_front h)

end QueryQueue

namespace SQLConn

theorem dispatch_of_front {esc : List Char → List Char} {a : Answers} {c : SQLConn}
    {query : SQLrequest} {qq : QueryQueue} (hq : c.qinprog = false)
    (hf : c.queue.front = some (query, qq)) :
    dispatch esc a c
      = some ((DoQuery esc a query { c with queue := qq }).1,
          { (DoQuery esc a query { c with queue := qq }).2.2 with
            queue := (DoQuery esc a query { c with queue := qq }).2.2.queue.setFront
              (DoQuery esc a query { c with queue := qq }).2.1 }) := by
  unfold dispatch
  rw [if_pos ⟨hq, QueryQueue.totalsize_ne_zero_of_front hf⟩, hf]

end SQLConn

/-! ## Consuming a result -/

namespace SQLConn

theorem fetchLoop_some (buf : List PGresult) :
    ∀ (r : PGresult) (cleared : List PGresult),
      fetchLoop (some r) buf cleared
        = ⟨(r :: buf).getLast?, cleared ++ (r :: buf).dropLast, []⟩ := by
  induction buf with
  | nil => intro r cleared; simp [fetchLoop]
  | cons t rest ih =>
    intro r cleared
    rw [fetchLoop, ih]
    simp [List.getLast?_cons_cons, List.dropLast]

theorem fetchResults_cons (r : PGresult) (rest : List PGresult) :
    fetchResults (r :: rest) = ⟨(r :: rest).getLast?, (r :: rest).dropLast, []⟩ := by
  unfold fetchResults PQgetResult
  simp [fetchLoop_some]

end SQLConn

/-! ## Submission through `OnRequest` -/

namespace ModulePgSQL

theorem lookup_eq_none {l : List (List Char × SQLConn)} {k : List Char}
    (h : ∀ e ∈ l, e.1 ≠ k) : l.lookup k = Option.none := by
  induction l with
  | nil => rfl
  | cons x xs ih =>
    obtain ⟨k1, v1⟩ := x
    have hx : k1 ≠ k := h (k1, v1) (List.mem_cons_self _ _)
    have hb : (k == k1) = false := by
      cases hkk : (k == k1)
      · rfl
      · exact absurd (eq_of_beq hkk).symm hx
    rw [List.lookup_cons, hb]
    exact ih (fun e he => h e (List.mem_cons_of_mem _ he))

/-- C14: for a request (of the SQL API, its `GetData()` being `SQLREQID`) whose `dbid` is
not a key of the connection map, `OnRequest` returns `NULL`, leaves the request as it was
but for its error id, set to `BAD_DBID`, and leaves the module, with every connection and
every queue, unchanged. -/
theorem OnRequest_unknown_dbid (w : Nat) (esc : List Char → List Char) (a : Answers)
    (SQLREQID SQLSUCCESS : List Char) (req : SQLrequest) (m : ModulePgSQL)
    (hk : ∀ e ∈ m.connections, e.1 ≠ req.dbid) :
    OnRequest w esc a SQLREQID SQLSUCCESS SQLREQID req m
      = some (Option.none,
          { req with error := { req.error with id := SQLerrorNum.BAD_DBID } }, m) := by
  unfold OnRequest
  rw [if_pos rfl, lookup_eq_none hk]

/-- Witness of C14: scenario B, a request for `ghost-db` on a module that has only `db`. -/
theorem OnRequest_unknown_dbid_witness :
    OnRequest 64 sampleEsc driverBusy "SQLv2".toList "SQLSUCCESS".toList
        "SQLv2".toList ghostRequest sampleModule
      = some (Option.none,
          { ghostRequest with
            error := { ghostRequest.error with id := SQLerrorNum.BAD_DBID } },
          sampleModule) :=
  OnRequest_unknown_dbid 64 sampleEsc driverBusy "SQLv2".toList
    "SQLSUCCESS".toList ghostRequest sampleModule (by decide)

/-- C18 as stated fails: with a 64-bit counter, the call of `NewID` made when the counter
is `2^64 - 2` returns `2^64 - 1` and the next call returns 1, which is not greater. -/
theorem NewID_wraps_to_one :
    (NewID 64 ⟨[], 2 ^ 64 - 2⟩).1 = 2 ^ 64 - 1
    ∧ (NewID 64 (NewID 64 ⟨[], 2 ^ 64 - 2⟩).2).1 = 1
    ∧ ¬ (NewID 64 ⟨[], 2 ^ 64 - 2⟩).1 < (NewID 64 (NewID 64 ⟨[], 2 ^ 64 - 2⟩).2).1 := by
  decide

/-- C18, amended: the counter holds the identifier the previous call returned, and a call
of `NewID` returns that identifier plus one, so a strictly greater one, as long as the
counter is below `2^w - 1`; at `2^w - 1` the counter wraps around, 0 is skipped and the
call returns 1. The identifier returned is never 0 and stays below `2^w`. -/
theorem NewID_increases_until_wrap (w : Nat) (m : ModulePgSQL) (hw : 0 < w)
    (hc : m.currid < 2 ^ w) :
    (NewID w m).2.currid = (NewID w m).1 ∧
    (m.currid + 1 < 2 ^ w → (NewID w m).1 = m.currid + 1 ∧ m.currid < (NewID w m).1) ∧
    (m.currid + 1 = 2 ^ w → (NewID w m).1 = 1) ∧
    (NewID w m).1 ≠ 0 ∧ (NewID w m).1 < 2 ^ w := by
  have h2 : 2 ≤ 2 ^ w := by
    calc 2 = 2 ^ 1 := by norm_num
      _ ≤ 2 ^ w := Nat.pow_le_pow_right (by norm_num) hw
  have hpos : 0 < 2 ^ w := by omega
  by_cases hlt : m.currid + 1 < 2 ^ w
  · have hmod : (m.currid + 1) % 2 ^ w = m.currid + 1 := Nat.mod_eq_of_lt hlt
    have hid : (NewID w m).1 = m.currid + 1 := by
      simp only [NewID, hmod]
      simp [hmod]
    refine ⟨rfl, fun _ => ⟨hid, by omega⟩, fun h => by omega, by omega, by omega⟩
  · have heq : m.currid + 1 = 2 ^ w := by omega
    have hmod : (m.currid + 1) % 2 ^ w = 0 := by rw [heq]; exact Nat.mod_self _
    have hid : (NewID w m).1 = 1 := by
      simp only [NewID, hmod]
      simp only [if_true, Nat.zero_add]
      exact Nat.mod_eq_of_lt (by omega)
    refine ⟨rfl, fun h => absurd h hlt, fun _ => hid, by omega, by omega⟩

/-- Witness of the amended C18: a 64-bit counter at 41. -/
theorem NewID_increases_until_wrap_witness :
    (NewID 64 ⟨[], 41⟩).2.currid = (NewID 64 ⟨[], 41⟩).1 ∧
    ((41 : Nat) + 1 < 2 ^ 64 → (NewID 64 ⟨[], 41⟩).1 = 41 + 1 ∧ 41 < (NewID 64 ⟨[], 41⟩).1) ∧
    ((41 : Nat) + 1 = 2 ^ 64 → (NewID 64 ⟨[], 41⟩).1 = 1) ∧
    (NewID 64 ⟨[], 41⟩).1 ≠ 0 ∧ (NewID 64 ⟨[], 41⟩).1 < 2 ^ 64 :=
  NewID_increases_until_wrap 64 ⟨[], 41⟩ (by decide) (by decide)

end ModulePgSQL

namespace QueryQueue

theorem front_defined {qq : QueryQueue} (hp : qq.PinOK) (hn : qq.totalsize ≠ 0) :
    ∃ r qq1, qq.front = some (r, qq1) := by
  obtain ⟨p, n, w⟩ := qq
  obtain ⟨h1, h2⟩ := hp
  cases w <;> cases p <;> cases n <;> simp_all [front, totalsize]

theorem pinOK_push {qq : QueryQueue} (q : SQLrequest) (hp : qq.PinOK) :
    (qq.push q).PinOK := by
  obtain ⟨p, n, w⟩ := qq
  obtain ⟨h1, h2⟩ := hp
  unfold push
  split_ifs
  · exact ⟨fun _ => by simp, h2⟩
  · exact ⟨h1, fun _ => by simp⟩

theorem totalsize_push_ne_zero (qq : QueryQueue) (q : SQLrequest) :
    (qq.push q).totalsize ≠ 0 := by
  unfold push totalsize
  split_ifs <;> simp

theorem ids_setFront_of_front {qq qq1 : QueryQueue} {query r : SQLrequest}
    (hf : qq.front = some (query, qq1)) (hid : r.id = query.id) :
    (qq1.setFront r).priority.map (fun x => x.id) = qq.priority.map (fun x => x.id) ∧
    (qq1.setFront r).normal.map (fun x => x.id) = qq.normal.map (fun x => x.id) := by
  obtain ⟨p, n, w⟩ := qq
  unfold front at hf
  cases w <;> cases p <;> cases n <;>
    simp at hf <;>
    (obtain ⟨hx, hy⟩ := hf; subst hx; subst hy; simp [setFront, hid])

theorem ids_push (qq : QueryQueue) (q : SQLrequest) :
    (qq.push q).priority.map (fun x => x.id)
      = qq.priority.map (fun x => x.id) ++ (if q.pri = true then [q.id] else []) ∧
    (qq.push q).normal.map (fun x => x.id)
      = qq.normal.map (fun x => x.id) ++ (if q.pri = true then [] else [q.id]) := by
  unfold push
  cases hq : q.pri <;> simp

end QueryQueue

namespace SQLConn

theorem id_DoQuery (esc : List Char → List Char) (a : Answers) (req : SQLrequest)
    (c : SQLConn) : (DoQuery esc a req c).2.1.id = req.id := by
  unfold DoQuery
  split_ifs <;> rfl

theorem error_DoQuery (esc : List Char → List Char) (a : Answers) (req : SQLrequest)
    (c : SQLConn) (hq : c.qinprog = false) :
    ((c.status = SQLstatus.WREAD ∨ c.status = SQLstatus.WWRITE) → a.sendOk = true →
      (DoQuery esc a req c).1 = SQLerror.none) ∧
    ((c.status = SQLstatus.WREAD ∨ c.status = SQLstatus.WWRITE) → a.sendOk = false →
      (DoQuery esc a req c).1 = ⟨SQLerrorNum.QSEND_FAIL, a.errmsg⟩) ∧
    (¬ (c.status = SQLstatus.WREAD ∨ c.status = SQLstatus.WWRITE) →
      (DoQuery esc a req c).1.id = SQLerrorNum.BAD_CONN) := by
  refine ⟨?_, ?_, ?_⟩
  · intro hs hok
    unfold DoQuery
    rw [if_pos hs, if_pos hq]
    simp [hok]
  · intro hs hok
    unfold DoQuery
    rw [if_pos hs, if_pos hq]
    simp [hok]
  · intro hs
    unfold DoQuery
    rw [if_neg hs]

theorem Query_outcome (esc : List Char → List Char) (a : Answers) (req : SQLrequest)
    (c : SQLConn) (hp : c.queue.PinOK) :
    ∃ err c1, Query esc a req c = some (err, c1) ∧
      c1.queue.priority.map (fun x => x.id)
        = c.queue.priority.map (fun x => x.id) ++ (if req.pri = true then [req.id] else []) ∧
      c1.queue.normal.map (fun x => x.id)
        = c.queue.normal.map (fun x => x.id) ++ (if req.pri = true then [] else [req.id]) ∧
      (c.qinprog = true → err = SQLerror.none) ∧
      (c.qinprog = false → (c.status = SQLstatus.WREAD ∨ c.status = SQLstatus.WWRITE) →
        a.sendOk = true → err = SQLerror.none) ∧
      (c.qinprog = false → (c.status = SQLstatus.WREAD ∨ c.status = SQLstatus.WWRITE) →
        a.sendOk = false → err = ⟨SQLerrorNum.QSEND_FAIL, a.errmsg⟩) ∧
      (c.qinprog = false → ¬ (c.status = SQLstatus.WREAD ∨ c.status = SQLstatus.WWRITE) →
        err.id = SQLerrorNum.BAD_CONN) := by
  obtain ⟨hi1, hi2⟩ := QueryQueue.ids_push c.queue req
  cases hq : c.qinprog with
  | true =>
    refine ⟨SQLerror.none, { c with queue := c.queue.push req }, ?_, hi1, hi2,
      fun _ => rfl, fun h => absurd h (by simp), fun h => absurd h (by simp),
      fun h => absurd h (by simp)⟩
    unfold Query dispatch
    simp [hq]
  | false =>
    obtain ⟨query, qq, hf⟩ := QueryQueue.front_defined (QueryQueue.pinOK_push req hp)
      (QueryQueue.totalsize_push_ne_zero c.queue req)
    have hd := @dispatch_of_front esc a { c with queue := c.queue.push req } query qq hq hf
    obtain ⟨hj1, hj2⟩ := QueryQueue.ids_setFront_of_front hf
      (id_DoQuery esc a query { c with queue := qq })
    obtain ⟨he1, he2, he3⟩ := error_DoQuery esc a query { c with queue := qq } hq
    refine ⟨_, _, hd, ?_, ?_, fun h => absurd h (by simp), fun _ => he1, fun _ => he2,
      fun _ => he3⟩
    · rw [← hi1, ← hj1, queue_DoQuery]
    · rw [← hi2, ← hj2, queue_DoQuery]

end SQLConn

namespace ModulePgSQL

/-- C15 as stated fails: on a module whose connection `db` is still connecting and idle,
`OnRequest` for a request for `db` returns `NULL` with the error `BAD_CONN`, although the
request has been numbered and queued on the connection. -/
theorem OnRequest_not_ready_refused :
    (OnRequest 64 sampleEsc driverBusy "SQLv2".toList "SQLSUCCESS".toList "SQLv2".toList
        dbRequest connectingModule).map
      (fun r => (r.1, r.2.1.error.id,
        r.2.2.connections.map (fun e => e.2.queue.normal.map (fun q => q.id))))
    = some (Option.none, SQLerrorNum.BAD_CONN, [[1]]) := by
  decide

/-- C15, amended: for every request (of the SQL API) whose `dbid` names a configured
connection, with a consistent pin, `OnRequest` numbers the request with `NewID` and queues
it on that connection, at the back of the deque of its class, whatever the state of the
connection, and returns the success token exactly when the error it stores in the request
is `NO_ERROR`. That is the case when a query is in progress, and when none is, the
connection is ready and the driver accepts the text submitted. With no query in progress,
the error is `BAD_CONN` when the connection is still connecting and `QSEND_FAIL` with the
driver's message when the driver rejects the text: the call then returns `NULL`, the
request being queued all the same. -/
theorem OnRequest_known_dbid (w : Nat) (esc : List Char → List Char) (a : Answers)
    (SQLREQID SQLSUCCESS : List Char) (req : SQLrequest) (m : ModulePgSQL) (conn : SQLConn)
    (hk : m.connections.lookup req.dbid = some conn) (hp : conn.queue.PinOK) :
    ∃ err conn1,
      OnRequest w esc a SQLREQID SQLSUCCESS SQLREQID req m
        = some (if err.id = SQLerrorNum.NO_ERROR then some SQLSUCCESS else Option.none,
            { req with id := (NewID w m).1, error := err },
            { m with currid := (NewID w m).1,
                     connections := setConn m.connections req.dbid conn1 }) ∧
      conn1.queue.priority.map (fun x => x.id)
        = conn.queue.priority.map (fun x => x.id)
          ++ (if req.pri = true then [(NewID w m).1] else []) ∧
      conn1.queue.normal.map (fun x => x.id)
        = conn.queue.normal.map (fun x => x.id)
          ++ (if req.pri = true then [] else [(NewID w m).1]) ∧
      (conn.qinprog = true → err = SQLerror.none) ∧
      (conn.qinprog = false →
        (conn.status = SQLstatus.WREAD ∨ conn.status = SQLstatus.WWRITE) →
        a.sendOk = true → err = SQLerror.none) ∧
      (conn.qinprog = false →
        (conn.status = SQLstatus.WREAD ∨ conn.status = SQLstatus.WWRITE) →
        a.sendOk = false → err = ⟨SQLerrorNum.QSEND_FAIL, a.errmsg⟩) ∧
      (conn.qinprog = false →
        ¬ (conn.status = SQLstatus.WREAD ∨ conn.status = SQLstatus.WWRITE) →
        err.id = SQLerrorNum.BAD_CONN) := by
  obtain ⟨err, conn1, hQ, h1, h2, h3, h4, h5, h6⟩ :=
    SQLConn.Query_outcome esc a { req with id := (NewID w m).1 } conn hp
  refine ⟨err, conn1, ?_, h1, h2, h3, h4, h5, h6⟩
  unfold OnRequest
  rw [if_pos rfl, hk]
  simp only [hQ]
  rfl

/-- Witness of the amended C15: a request for `db` on the module whose connection `db` is
still connecting. -/
theorem OnRequest_known_dbid_witness :
    ∃ err conn1,
      OnRequest 64 sampleEsc driverBusy "SQLv2".toList "SQLSUCCESS".toList "SQLv2".toList
          dbRequest connectingModule
        = some (if err.id = SQLerrorNum.NO_ERROR then some "SQLSUCCESS".toList
              else Option.none,
            { dbRequest with id := (NewID 64 connectingModule).1, error := err },
            { connectingModule with
              currid := (NewID 64 connectingModule).1,
              connections := setConn connectingModule.connections dbRequest.dbid conn1 }) ∧
      conn1.queue.priority.map (fun x => x.id)
        = sampleConn.queue.priority.map (fun x => x.id)
          ++ (if dbRequest.pri = true then [(NewID 64 connectingModule).1] else []) ∧
      conn1.queue.normal.map (fun x => x.id)
        = sampleConn.queue.normal.map (fun x => x.id)
          ++ (if dbRequest.pri = true then [] else [(NewID 64 connectingModule).1]) ∧
      (sampleConn.qinprog = true → err = SQLerror.none) ∧
      (sampleConn.qinprog = false →
        (sampleConn.status = SQLstatus.WREAD ∨ sampleConn.status = SQLstatus.WWRITE) →
        driverBusy.sendOk = true → err = SQLerror.none) ∧
      (sampleConn.qinprog = false →
        (sampleConn.status = SQLstatus.WREAD ∨ sampleConn.status = SQLstatus.WWRITE) →
        driverBusy.sendOk = false → err = ⟨SQLerrorNum.QSEND_FAIL, driverBusy.errmsg⟩) ∧
      (sampleConn.qinprog = false →
        ¬ (sampleConn.status = SQLstatus.WREAD ∨ sampleConn.status = SQLstatus.WWRITE) →
        err.id = SQLerrorNum.BAD_CONN) :=
  OnRequest_known_dbid 64 sampleEsc driverBusy "SQLv2".toList "SQLSUCCESS".toList
    dbRequest connectingModule sampleConn (by decide)
    ⟨fun h => absurd h (by decide), fun h => absurd h (by decide)⟩

end ModulePgSQL

/-! ## The rows of a result -/

namespace PgSQLresult

theorem map_getD_range {α : Type} (t : List α) (d : α) :
    (List.range t.length).map (fun i => t.getD i d) = t := by
  apply List.ext_getElem
  · simp
  · intro i h1 h2
    simp [List.getD_eq_getElem?_getD, List.getElem?_eq_getElem h2]

theorem listLoop_of_row (o : PgSQLresult) (t : List SQLfield)
    (ht : o.res.tuples[o.currentrow]? = some t) :
    ∀ (is : List Nat) (fl : List SQLfield), (∀ i ∈ is, i < t.length) →
      listLoop o is fl = some (fl ++ is.map (fun i => t.getD i ([], false))) := by
  intro is
  induction is with
  | nil => intro fl _; simp [listLoop]
  | cons i is ih =>
    intro fl h
    have hi : i < t.length := h i (List.mem_cons_self _ _)
    have hv : o.GetValue o.currentrow i = some (t.getD i ([], false)) := by
      simp [GetValue, PQgetvalue, ht, List.getD_eq_getElem?_getD,
        List.getElem?_eq_getElem hi]
    rw [listLoop, hv]
    simp only
    rw [ih (fl ++ [t.getD i ([], false)]) (fun j hj => h j (List.mem_cons_of_mem _ hj))]
    simp

theorem GetRow_in_range (o : PgSQLresult) (hwf : o.res.WellFormed) (t : List SQLfield)
    (ht : o.res.tuples[o.currentrow]? = some t) :
    o.GetRow = some (t, { o with currentrow := o.currentrow + 1 }) := by
  have hlt : o.currentrow < o.res.tuples.length := by
    by_contra hge
    rw [List.getElem?_eq_none (by omega)] at ht
    exact absurd ht (by simp)
  have hmem : t ∈ o.res.tuples := by
    have h1 : o.res.tuples[o.currentrow] = t := by
      rw [List.getElem?_eq_getElem hlt] at ht
      exact Option.some.inj ht
    rw [← h1]
    exact List.getElem_mem _
  have hlen : t.length = o.res.fnames.length := hwf t hmem
  unfold GetRow PQntuples PQnfields
  rw [if_pos hlt, ← hlen,
    listLoop_of_row o t ht (List.range t.length) [] (fun i hi => List.mem_range.1 hi),
    List.nil_append, map_getD_range]
  rfl

theorem GetRow_past_end (o : PgSQLresult) (h : o.res.tuples.length ≤ o.currentrow) :
    o.GetRow = some ([], o) := by
  unfold GetRow PQntuples
  rw [if_neg (by omega)]

theorem GetRows_from (res : PGresult) (hwf : res.WellFormed) (n : Nat) :
    ∀ k : Nat, k ≤ res.tuples.length →
      GetRows n ⟨res, k⟩
        = some ((res.tuples.drop k).take n
                  ++ List.replicate (n - (res.tuples.length - k)) [],
                ⟨res, min (k + n) res.tuples.length⟩) := by
  induction n with
  | zero => intro k hk; simp [GetRows, Nat.min_eq_left hk]
  | succ n ih =>
    intro k hk
    by_cases hlt : k < res.tuples.length
    · have ht : res.tuples[k]? = some res.tuples[k] := List.getElem?_eq_getElem hlt
      rw [GetRows, GetRow_in_range ⟨res, k⟩ hwf _ ht]
      simp only
      rw [ih (k + 1) (by omega)]
      have hd : res.tuples.drop k = res.tuples[k] :: res.tuples.drop (k + 1) :=
        List.drop_eq_getElem_cons hlt
      have e1 : n + 1 - (res.tuples.length - k) = n - (res.tuples.length - (k + 1)) := by
        omega
      have e2 : k + 1 + n = k + (n + 1) := by omega
      rw [hd, e1, e2, List.take_succ_cons]
      rfl
    · have hk2 : k = res.tuples.length := by omega
      rw [GetRows, GetRow_past_end ⟨res, k⟩ (by simp [hk2])]
      simp only
      rw [ih k hk]
      subst hk2
      simp [List.replicate_succ]

/-- C16: for every well-formed result of `R` rows and `C` columns on which only `GetRow`
is called, `n` successive calls all return (none raises), the lists returned are the first
`n` rows in order, each with its `C` fields in column order as value bytes and null flag,
followed by an empty list for every call after the `R`-th, and the cursor afterwards is
`n`, or `R` once `n` exceeds it: each of the first `R` calls advances it by one row and the
later ones leave it at `R`. -/
theorem GetRow_returns_rows_then_empty (res : PGresult) (hwf : res.WellFormed) (n : Nat) :
    GetRows n (PgSQLresult.new res)
      = some (res.tuples.take n ++ List.replicate (n - PQntuples res) [],
              ⟨res, min n (PQntuples res)⟩) ∧
    (∀ t ∈ res.tuples.take n, t.length = PQnfields res) ∧
    (∀ (k : Nat) (t : List SQLfield), res.tuples[k]? = some t →
      GetRow ⟨res, k⟩ = some (t, ⟨res, k + 1⟩)) ∧
    (∀ k : Nat, PQntuples res ≤ k → GetRow ⟨res, k⟩ = some ([], ⟨res, k⟩)) := by
  refine ⟨?_, fun t ht => hwf t (List.mem_of_mem_take ht),
    fun k t ht => GetRow_in_range ⟨res, k⟩ hwf t ht,
    fun k hk => GetRow_past_end ⟨res, k⟩ hk⟩
  have h := GetRows_from res hwf n 0 (Nat.zero_le _)
  simpa [PgSQLresult.new, PQntuples] using h

/-- Witness of C16: three calls on a result of two rows and two columns. -/
theorem GetRow_returns_rows_then_empty_witness :
    GetRows 3 (PgSQLresult.new sampleResult)
      = some (sampleResult.tuples.take 3 ++ List.replicate (3 - PQntuples sampleResult) [],
              ⟨sampleResult, min 3 (PQntuples sampleResult)⟩) ∧
    (∀ t ∈ sampleResult.tuples.take 3, t.length = PQnfields sampleResult) ∧
    (∀ (k : Nat) (t : List SQLfield), sampleResult.tuples[k]? = some t →
      GetRow ⟨sampleResult, k⟩ = some (t, ⟨sampleResult, k + 1⟩)) ∧
    (∀ k : Nat, PQntuples sampleResult ≤ k →
      GetRow ⟨sampleResult, k⟩ = some ([], ⟨sampleResult, k⟩)) :=
  GetRow_returns_rows_then_empty sampleResult (by unfold PGresult.WellFormed; decide) 3

theorem lookup_map_of_nodup {β : Type} (f : Nat → List Char) (g : Nat → β) :
    ∀ (is : List Nat) (i : Nat), (is.map f).Nodup → i ∈ is →
      (is.map (fun j => (f j, g j))).lookup (f i) = some (g i) := by
  intro is
  induction is with
  | nil => intro i _ hi; exact absurd hi (List.not_mem_nil _)
  | cons j js ih =>
    intro i hnd hi
    rw [List.map_cons, List.nodup_cons] at hnd
    rw [List.map_cons, List.lookup_cons]
    by_cases hij : i = j
    · subst hij
      simp
    · have hmem : i ∈ js := by
        rcases List.mem_cons.1 hi with h | h
        · exact absurd h hij
        · exact h
      have hne : f i ≠ f j := fun h => hnd.1 (h ▸ List.mem_map_of_mem f hmem)
      have hb : (f i == f j) = false := by
        cases hkk : (f i == f j)
        · rfl
        · exact absurd (eq_of_beq hkk) hne
      rw [hb]
      exact ih i hnd.2 hmem

theorem mapLoop_of_row (o : PgSQLresult) (t : List SQLfield)
    (ht : o.res.tuples[o.currentrow]? = some t) :
    ∀ (is : List Nat) (fm : SQLfieldMap), (∀ i ∈ is, i < t.length) →
      (is.map o.ColName).Nodup → (∀ i ∈ is, ∀ e ∈ fm, e.1 ≠ o.ColName i) →
      mapLoop o is fm
        = some (fm ++ is.map (fun i => (o.ColName i, t.getD i ([], false)))) := by
  intro is
  induction is with
  | nil => intro fm _ _ _; simp [mapLoop]
  | cons i is ih =>
    intro fm h hnd hfm
    have hi : i < t.length := h i (List.mem_cons_self _ _)
    have hv : o.GetValue o.currentrow i = some (t.getD i ([], false)) := by
      simp [GetValue, PQgetvalue, ht, List.getD_eq_getElem?_getD,
        List.getElem?_eq_getElem hi]
    rw [List.map_cons, List.nodup_cons] at hnd
    have hany : fm.any (fun x => x.1 == o.ColName i) = false := by
      rw [List.any_eq_false]
      intro e he hbe
      exact hfm i (List.mem_cons_self _ _) e he (eq_of_beq hbe)
    rw [mapLoop, hv]
    simp only [SQLfieldMap.insert, hany, Bool.false_eq_true, if_false]
    rw [ih (fm ++ [(o.ColName i, t.getD i ([], false))])
      (fun j hj => h j (List.mem_cons_of_mem _ hj)) hnd.2 ?_]
    · simp
    · intro j hj e he
      rcases List.mem_append.1 he with he | he
      · exact hfm j (List.mem_cons_of_mem _ hj) e he
      · rw [List.mem_singleton] at he
        subst he
        intro heq
        have heq2 : o.ColName i = o.ColName j := heq
        exact hnd.1 (heq2 ▸ List.mem_map_of_mem o.ColName hj)

/-- C17 as stated fails: for a result of one row whose two columns are both named `id`,
with the values 1 and 2, `GetRow` returns both fields but the map `GetRowMap` returns has
one entry only, and the entry under the name of column 1 holds the field of column 0. -/
theorem GetRowMap_merges_equal_names :
    (GetRow (PgSQLresult.new sameNameResult)).map (fun r => r.1)
      = some [("1".toList, false), ("2".toList, false)]
    ∧ (GetRowMap (PgSQLresult.new sameNameResult)).map (fun r => r.1)
      = some [("id".toList, ("1".toList, false))]
    ∧ (GetRowMap (PgSQLresult.new sameNameResult)).map
        (fun r => (r.1.length, r.1.lookup ((PgSQLresult.new sameNameResult).ColName 1)))
      = some (1, some ("1".toList, false))
    ∧ (GetRowMap (PgSQLresult.new sameNameResult)).map
        (fun r => r.1.lookup ((PgSQLresult.new sameNameResult).ColName 1))
      ≠ (GetRow (PgSQLresult.new sameNameResult)).map (fun r => r.1[1]?) := by
  decide

end PgSQLresult

/-! ## The size of the query buffer -/

theorem writeLoop_spec (esc : List Char → List Char) (t : List Char) :
    ∀ (p : List (List Char)) (qe ext : Nat), ext ≤ qe + 1 →
      (writeLoop esc t p qe ext).1 = qe + (buildQuery esc t p []).1.length ∧
      (writeLoop esc t p qe ext).2 ≤ (writeLoop esc t p qe ext).1 + 1 := by
  induction t with
  | nil => intro p qe ext h; simpa [writeLoop, buildQuery] using h
  | cons c cs ih =>
    intro p qe ext h
    by_cases hc : c = '?'
    · cases p with
      | nil => simpa [writeLoop, buildQuery, hc] using h
      | cons par rest =>
        obtain ⟨h1, h2⟩ := ih rest (qe + (esc par).length)
          (max ext (qe + (esc par).length + 1)) (by omega)
        simp only [writeLoop, buildQuery, hc, if_true]
        rw [buildQuery_out]
        refine ⟨?_, h2⟩
        rw [h1]
        simp only [List.nil_append, List.length_append]
        omega
    · obtain ⟨h1, h2⟩ := ih p (qe + 1) (max ext (qe + 1)) (by omega)
      simp only [writeLoop, buildQuery, hc, if_false]
      rw [buildQuery_out]
      refine ⟨?_, h2⟩
      rw [h1]
      simp only [List.nil_append, List.length_append, List.length_singleton]
      omega

theorem bytesWritten_eq (esc : List Char → List Char) (req : SQLrequest) :
    bytesWritten esc req = (buildQuery esc req.query.q req.query.p []).1.length + 1 := by
  obtain ⟨h1, h2⟩ := writeLoop_spec esc req.query.q req.query.p 0 0 (by omega)
  unfold bytesWritten
  rw [Nat.max_eq_right h2, h1]
  omega

theorem length_buildQuery_le (esc : List Char → List Char)
    (hesc : ∀ p, (esc p).length ≤ 2 * p.length) (t : List Char) :
    ∀ p : List (List Char),
      (buildQuery esc t p []).1.length ≤ t.length + 2 * (p.map List.length).sum := by
  induction t with
  | nil => intro p; simp [buildQuery]
  | cons c cs ih =>
    intro p
    by_cases hc : c = '?'
    · cases p with
      | nil => simp [buildQuery, hc]
      | cons par rest =>
        simp only [buildQuery, hc, if_true]
        rw [buildQuery_out]
        have h1 := ih rest
        have h2 := hesc par
        simp only [List.nil_append, List.length_append, List.length_cons, List.map_cons,
          List.sum_cons]
        omega
    · simp only [buildQuery, hc, if_false]
      rw [buildQuery_out]
      have h1 := ih p
      simp only [List.nil_append, List.length_append, List.length_singleton,
        List.length_cons, List.length_nil]
      omega

theorem paramlen_eq (p : List (List Char)) :
    paramlen p = (p.map List.length).sum % 2 ^ 32 := by
  have h : ∀ (l : List (List Char)) (acc : Nat),
      l.foldl (fun a par => (a + par.length) % 2 ^ 32) acc % 2 ^ 32
        = (acc + (l.map List.length).sum) % 2 ^ 32 := by
    intro l
    induction l with
    | nil => intro acc; simp
    | cons x xs ih =>
      intro acc
      rw [List.foldl_cons, ih]
      simp only [List.map_cons, List.sum_cons]
      omega
  have h0 := h p 0
  have hlt : ∀ (l : List (List Char)) (acc : Nat), acc < 2 ^ 32 →
      l.foldl (fun a par => (a + par.length) % 2 ^ 32) acc < 2 ^ 32 := by
    intro l
    induction l with
    | nil => intro acc hacc; simpa using hacc
    | cons x xs ih =>
      intro acc _
      rw [List.foldl_cons]
      exact ih _ (Nat.mod_lt _ (by norm_num))
  unfold paramlen
  rw [← Nat.mod_eq_of_lt (hlt p 0 (by norm_num)), h0]
  simp

theorem buildQuery_no_placeholder (esc : List Char → List Char) (t : List Char)
    (h : '?' ∉ t) : (buildQuery esc t [] []).1 = t := by
  induction t with
  | nil => rfl
  | cons c cs ih =>
    have hc : c ≠ '?' := fun e => h (e ▸ List.mem_cons_self _ _)
    have hcs : '?' ∉ cs := fun e => h (List.mem_cons_of_mem _ e)
    simp only [buildQuery, hc, if_false]
    rw [buildQuery_out, ih hcs]
    rfl

theorem length_pgEscape_le (p : List Char) : (pgEscape p).length ≤ 2 * p.length := by
  induction p with
  | nil => simp [pgEscape]
  | cons c cs ih =>
    have h : pgEscape (c :: cs)
        = (if c = Char.ofNat 39 ∨ c = Char.ofNat 92 then [c, c] else [c]) ++ pgEscape cs := by
      simp [pgEscape, List.flatMap_cons]
    rw [h, List.length_append, List.length_cons]
    split <;> simp <;> omega

/-- C19 fails on the code: for the template `SELECT 1` with no parameter `DoQuery`
allocates 8 bytes and writes 9, the last being the terminating NUL, with an escaping
routine that at most doubles a parameter. In general the bytes
written are the text built and its terminating NUL; with an escaping routine that at most
doubles a parameter, and parameter sizes whose doubled sum fits the `unsigned int`, they
never exceed the allocation plus one, which is the size the comment in `DoQuery` states
(`sizeofquery + (totalparamlength*2) + 1`); and for every template without `?` and no
parameter they exceed the allocation by exactly one. -/
theorem query_buffer_one_byte_short :
    queryBufferSize (mkRequest 1 false (some 5) "SELECT 1".toList []) = 8 ∧
    bytesWritten pgEscape (mkRequest 1 false (some 5) "SELECT 1".toList []) = 9 ∧
    (∀ p, (pgEscape p).length ≤ 2 * p.length) ∧
    (∀ (esc : List Char → List Char) (req : SQLrequest),
      bytesWritten esc req = (buildQuery esc req.query.q req.query.p []).1.length + 1) ∧
    (∀ (esc : List Char → List Char) (req : SQLrequest),
      (∀ p, (esc p).length ≤ 2 * p.length) →
      2 * (req.query.p.map List.length).sum < 2 ^ 32 →
      bytesWritten esc req ≤ queryBufferSize req + 1) ∧
    (∀ (esc : List Char → List Char) (req : SQLrequest),
      '?' ∉ req.query.q → req.query.p = [] →
      bytesWritten esc req = queryBufferSize req + 1) := by
  refine ⟨by decide, by decide, length_pgEscape_le, bytesWritten_eq, ?_, ?_⟩
  · intro esc req hesc hsum
    have h1 := length_buildQuery_le esc hesc req.query.q req.query.p
    have h2 : (paramlen req.query.p * 2) % 2 ^ 32
        = 2 * (req.query.p.map List.length).sum := by
      have hs : (req.query.p.map List.length).sum < 2 ^ 32 := by omega
      rw [paramlen_eq, Nat.mod_eq_of_lt hs, Nat.mul_comm, Nat.mod_eq_of_lt hsum]
    rw [bytesWritten_eq]
    unfold queryBufferSize
    omega
  · intro esc req hq hp
    rw [bytesWritten_eq, hp, buildQuery_no_placeholder esc _ hq]
    unfold queryBufferSize
    rw [hp]
    rfl

/-! ## The connection-info string -/

namespace SQLConn

/-- C20 fails on the code: `conninfo` is constructed from `connect_timeout = '2'` with the
put position at the start, so the settings inserted afterwards overwrite it. For the
sample connection the string returned holds the five configured settings and no
`connect_timeout`; for every connection with a host the string starts with the `hostaddr`
setting; only with no field configured is the result `connect_timeout = '2'`. -/
theorem MkInfoStr_overwrites_timeout :
    MkInfoStr sampleConn
      = (" hostaddr = '127.0.0.1' port = '5432' dbname = 'db' user = 'user'"
          ++ " password = 'pw'").toList ∧
    (∀ c : SQLConn, c.dbhost ≠ [] →
      ∃ rest, MkInfoStr c = " hostaddr = '".toList ++ c.dbhost ++ rest) ∧
    MkInfoStr bareConn = "connect_timeout = '2'".toList := by
  refine ⟨by rfl, ?_, by rfl⟩
  intro c hc
  have hlen : c.dbhost.length ≠ 0 := by
    cases hd : c.dbhost with
    | nil => exact absurd hd hc
    | cons x xs => simp
  unfold MkInfoStr ostringstreamStr MkInfoInserted
  rw [if_pos hlen]
  simp only [List.append_assoc]
  exact ⟨_, rfl⟩

end SQLConn

/-! ## The pin invariant of the queue -/

namespace QueryQueue

theorem pinOK_of_active {qq : QueryQueue} {r : SQLrequest} (h : Active qq r) : qq.PinOK := by
  rcases h with ⟨hw, hr⟩ | ⟨hw, hr⟩
  · refine ⟨fun _ hn => ?_, fun h2 => ?_⟩
    · rw [hn] at hr
      simp at hr
    · rw [hw] at h2
      exact absurd h2 (by decide)
  · refine ⟨fun h2 => ?_, fun _ hn => ?_⟩
    · rw [hw] at h2
      exact absurd h2 (by decide)
    · rw [hn] at hr
      simp at hr

theorem deque_of_front {qq qq1 : QueryQueue} {r : SQLrequest}
    (h : qq.front = some (r, qq1)) (pri : Bool) : qq1.deque pri = qq.deque pri := by
  obtain ⟨p, n, w⟩ := qq
  unfold front at h
  cases w <;> cases p <;> cases n <;>
    simp at h <;>
    (obtain ⟨_, h⟩ := h; subst h; rfl)

theorem pinOK_set {qq : QueryQueue} (pri : Bool) (i : Nat) (x : SQLrequest)
    (hp : qq.PinOK) : (qq.setDeque pri ((qq.deque pri).set i x)).PinOK := by
  obtain ⟨p, n, w⟩ := qq
  obtain ⟨h1, h2⟩ := hp
  cases pri
  · refine ⟨h1, fun hw => ?_⟩
    have h3 := h2 hw
    simp only [setDeque, deque] at h3 ⊢
    intro hn
    exact h3 (List.length_eq_zero.mp (by simpa using congrArg List.length hn))
  · refine ⟨fun hw => ?_, h2⟩
    have h3 := h1 hw
    simp only [setDeque, deque] at h3 ⊢
    intro hn
    exact h3 (List.length_eq_zero.mp (by simpa using congrArg List.length hn))

theorem eraseIdx_ne_nil {l : List SQLrequest} {f it : SQLrequest} {i : Nat}
    (hh : l.head? = some f) (hi : l[i]? = some it) (hid : it.id ≠ f.id) :
    l.eraseIdx i ≠ [] := by
  cases l with
  | nil => simp at hh
  | cons x xs =>
    cases i with
    | zero =>
      simp at hh hi
      rw [← hi, hh] at hid
      exact absurd rfl hid
    | succ j => simp

theorem pinOK_erase {qq : QueryQueue} {f it : SQLrequest} (pri : Bool) (i : Nat)
    (ha : Active qq f) (hi : (qq.deque pri)[i]? = some it) (hid : it.id ≠ f.id) :
    (qq.setDeque pri ((qq.deque pri).eraseIdx i)).PinOK := by
  obtain ⟨p, n, w⟩ := qq
  have hp := pinOK_of_active ha
  obtain ⟨h1, h2⟩ := hp
  cases pri
  · refine ⟨h1, fun hw => ?_⟩
    rcases ha with ⟨hw2, _⟩ | ⟨_, hr⟩
    · have hw3 : w = Which.NOR := hw
      have hw4 : w = Which.PRI := hw2
      rw [hw4] at hw3
      exact absurd hw3 (by decide)
    · exact eraseIdx_ne_nil hr hi hid
  · refine ⟨fun hw => ?_, h2⟩
    rcases ha with ⟨_, hr⟩ | ⟨hw2, _⟩
    · exact eraseIdx_ne_nil hr hi hid
    · have hw3 : w = Which.PRI := hw
      have hw4 : w = Which.NOR := hw2
      rw [hw4] at hw3
      exact absurd hw3 (by decide)

theorem pinOK_DoPurgeLoop (mod : Option Nat) (pri : Bool) :
    ∀ (k : Nat) (qq qq2 : QueryQueue), qq.PinOK → DoPurgeLoop mod pri k qq = some qq2 →
      qq2.PinOK := by
  intro k
  induction k using Nat.strong_induction_on with
  | _ k ih =>
    intro qq qq2 hp h
    cases k with
    | zero =>
      simp only [DoPurgeLoop, Option.some.injEq] at h
      exact h ▸ hp
    | succ k =>
      rw [DoPurgeLoop] at h
      split at h
      · exact absurd h (by simp)
      · rename_i it hit
        split_ifs at h with hs
        · split at h
          · exact absurd h (by simp)
          · rename_i f qq1 hf
            have ha := active_of_front hf
            split_ifs at h with hid
            · exact ih k (Nat.lt_succ_self k) _ _ (pinOK_set pri _ _ (pinOK_of_active ha)) h
            · split at h
              · exact absurd h (by simp)
              · rename_i j
                have hit2 : (qq1.deque pri)[(qq.deque pri).length - (j + 1 + 1)]? = some it := by
                  rw [deque_of_front hf pri]
                  exact hit
                exact ih j (by omega) _ _ (pinOK_erase pri _ ha hit2 hid) h
        · exact ih k (Nat.lt_succ_self k) _ _ hp h

theorem pinOK_PurgeModule {mod : Option Nat} {qq qq2 : QueryQueue} (hp : qq.PinOK)
    (h : qq.PurgeModule mod = some qq2) : qq2.PinOK := by
  unfold PurgeModule at h
  cases h1 : DoPurgeModule mod true qq with
  | none => rw [h1] at h; exact absurd h (by simp)
  | some q1 =>
    rw [h1] at h
    exact pinOK_DoPurgeLoop mod false _ _ _ (pinOK_DoPurgeLoop mod true _ _ _ hp h1) h

theorem pinOK_pop (qq : QueryQueue) : qq.pop.PinOK := by
  unfold pop
  split_ifs <;> exact ⟨fun h => absurd h (by simp), fun h => absurd h (by simp)⟩

theorem pinOK_call {qq qq2 : QueryQueue} (o : QCall) (hp : qq.PinOK)
    (h : qq.call o = some qq2) : qq2.PinOK := by
  cases o with
  | push q =>
    simp only [call, Option.some.injEq] at h
    exact h ▸ pinOK_push q hp
  | front =>
    simp only [call] at h
    split_ifs at h
    · simp only [Option.some.injEq] at h
      exact h ▸ hp
    · cases hf : qq.front with
      | none => rw [hf] at h; exact absurd h (by simp)
      | some r =>
        rw [hf] at h
        simp only [Option.map_some', Option.some.injEq] at h
        have ha : Active r.2 r.1 := active_of_front hf
        exact h ▸ pinOK_of_active ha
  | pop =>
    simp only [call, Option.some.injEq] at h
    exact h ▸ pinOK_pop qq
  | purge mod => exact pinOK_PurgeModule hp h

theorem pinOK_calls (ops : List QCall) :
    ∀ (qq qq2 : QueryQueue), qq.PinOK → calls ops qq = some qq2 → qq2.PinOK := by
  induction ops with
  | nil =>
    intro qq qq2 hp h
    simp only [calls, Option.some.injEq] at h
    exact h ▸ hp
  | cons o os ih =>
    intro qq qq2 hp h
    simp only [calls] at h
    cases h1 : qq.call o with
    | none => rw [h1] at h; exact absurd h (by simp)
    | some q1 =>
      rw [h1] at h
      exact ih q1 qq2 (pinOK_call o hp h1) h

theorem front_of_pinned {qq : QueryQueue} (hp : qq.PinOK) (hw : qq.which ≠ Which.NON) :
    ∃ r, qq.front = some (r, qq) := by
  obtain ⟨p, n, w⟩ := qq
  obtain ⟨h1, h2⟩ := hp
  cases w <;> cases p <;> cases n <;> simp_all [front]

/-- C21: in every state reached from the empty queue by calls of `push`, `front` (made
only when `totalsize()` is not 0), `pop` and `PurgeModule`, the priority deque is not empty
when the pin is `PRI` and the normal deque is not empty when the pin is `NOR`, so a pinned
`front()` returns the head of a non-empty deque and leaves the queue as it is. Distinct
ids are not needed: `DoPurgeModule` erases only requests whose id differs from that of
the active request. -/
theorem pin_selects_nonempty_deque (ops : List QCall) (qq : QueryQueue)
    (h : calls ops empty = some qq) :
    (qq.which = Which.PRI → qq.priority ≠ []) ∧
    (qq.which = Which.NOR → qq.normal ≠ []) ∧
    (qq.which ≠ Which.NON → ∃ r, qq.front = some (r, qq)) := by
  have hp : qq.PinOK :=
    pinOK_calls ops empty qq ⟨fun h => absurd h (by decide), fun h => absurd h (by decide)⟩ h
  exact ⟨hp.1, hp.2, front_of_pinned hp⟩

/-- Witness of C21: four requests queued, the first made active, then a purge of module 7
that clears the source of the active request and erases request 3. -/
theorem pin_selects_nonempty_deque_witness :
    calls sampleCalls empty = some purgedQueue ∧
    ((purgedQueue.which = Which.PRI → purgedQueue.priority ≠ []) ∧
     (purgedQueue.which = Which.NOR → purgedQueue.normal ≠ []) ∧
     (purgedQueue.which ≠ Which.NON → ∃ r, purgedQueue.front = some (r, purgedQueue))) :=
  ⟨by decide, pin_selects_nonempty_deque sampleCalls purgedQueue (by decide)⟩

end QueryQueue

/-! ## A submission that fails stays queued -/

namespace SQLConn

theorem qinprog_DoQuery_of_error (esc : List Char → List Char) (a : Answers)
    (req : SQLrequest) (c : SQLConn)
    (he : (DoQuery esc a req c).1.id ≠ SQLerrorNum.NO_ERROR) :
    (DoQuery esc a req c).2.2.qinprog = c.qinprog := by
  unfold DoQuery at he ⊢
  split_ifs at he ⊢ with h1 h2 h3
  · exact absurd rfl he
  · rfl
  · rfl
  · rfl

theorem qinprog_dispatch_of_error {esc : List Char → List Char} {a : Answers}
    {c c1 : SQLConn} {e : SQLerror} (h : dispatch esc a c = some (e, c1))
    (he : e.id ≠ SQLerrorNum.NO_ERROR) : c1.qinprog = c.qinprog := by
  unfold dispatch at h
  split_ifs at h with hc
  · split at h
    · exact absurd h (by simp)
    · rename_i query qq hf
      simp only [Option.some.injEq, Prod.mk.injEq] at h
      obtain ⟨h1, h2⟩ := h
      rw [← h1] at he
      rw [← h2]
      exact qinprog_DoQuery_of_error esc a query { c with queue := qq } he
  · simp only [Option.some.injEq, Prod.mk.injEq] at h
    rw [← h.2]

/-- C22 as stated fails: `Query` of request 1 on the connection as constructed (still
connecting, idle, empty queue) returns `BAD_CONN` and leaves request 1 in the queue, which
was empty before; once the handshake is over, the next pass of `DoConnectedPoll` submits
request 1 to the driver. -/
theorem Query_error_leaves_request_queued :
    (Query sampleEsc driverBusy (mkRequest 1 false (some 5) "Q1".toList []) sampleConn).map
        (fun r => (r.1.id, r.2.queue.normal.map (fun q => q.id), r.2.trace))
      = some (SQLerrorNum.BAD_CONN, [1], [])
    ∧ sampleConn.queue.normal = []
    ∧ ((Query sampleEsc driverBusy (mkRequest 1 false (some 5) "Q1".toList []) sampleConn).bind
        (fun r => DoConnectedPoll sampleEsc (fun _ => driverBusy)
          { r.2 with status := SQLstatus.WWRITE })).map (fun r => r.2.trace)
      = some [Event.send 1 "Q1".toList true 0] := by
  decide

/-- C22, amended: `Query` appends the request to the back of the deque of its class and
never removes it. When the call returns an error other than `NO_ERROR` (the pin being
consistent), the request is queued all the same: the ids of each deque are those of before
with the id of the request appended to the deque of its class, the queue holds one request
more, and no query is in progress before or after the call. The error is `BAD_CONN`, the
connection not being ready, or `QSEND_FAIL` with the driver's message, the connection
being ready and the driver having rejected the text of the active request. -/
theorem Query_error_keeps_request (esc : List Char → List Char) (a : Answers)
    (req : SQLrequest) (c c1 : SQLConn) (err : SQLerror) (hp : c.queue.PinOK)
    (hQ : Query esc a req c = some (err, c1)) (he : err.id ≠ SQLerrorNum.NO_ERROR) :
    c1.queue.priority.map (fun x => x.id)
      = c.queue.priority.map (fun x => x.id) ++ (if req.pri = true then [req.id] else []) ∧
    c1.queue.normal.map (fun x => x.id)
      = c.queue.normal.map (fun x => x.id) ++ (if req.pri = true then [] else [req.id]) ∧
    c1.queue.totalsize = c.queue.totalsize + 1 ∧
    c.qinprog = false ∧ c1.qinprog = false ∧
    ((err.id = SQLerrorNum.BAD_CONN ∧
        ¬ (c.status = SQLstatus.WREAD ∨ c.status = SQLstatus.WWRITE)) ∨
     (err = ⟨SQLerrorNum.QSEND_FAIL, a.errmsg⟩ ∧
        (c.status = SQLstatus.WREAD ∨ c.status = SQLstatus.WWRITE) ∧ a.sendOk = false)) := by
  obtain ⟨err2, c2, hQ2, hi1, hi2, ho1, ho2, ho3, ho4⟩ := Query_outcome esc a req c hp
  rw [hQ] at hQ2
  simp only [Option.some.injEq, Prod.mk.injEq] at hQ2
  obtain ⟨rfl, rfl⟩ := hQ2
  have hq : c.qinprog = false := by
    cases h : c.qinprog with
    | false => rfl
    | true =>
      have := ho1 h
      rw [this] at he
      exact absurd rfl he
  have hq1 : c1.qinprog = false := by
    have h := qinprog_dispatch_of_error hQ he
    rw [h]
    exact hq
  have hsize : c1.queue.totalsize = c.queue.totalsize + 1 := by
    have l1 := congrArg List.length hi1
    have l2 := congrArg List.length hi2
    simp only [List.length_map, List.length_append] at l1 l2
    unfold QueryQueue.totalsize
    rw [l1, l2]
    cases req.pri <;> simp <;> omega
  refine ⟨hi1, hi2, hsize, hq, hq1, ?_⟩
  by_cases hs : c.status = SQLstatus.WREAD ∨ c.status = SQLstatus.WWRITE
  · right
    cases hok : a.sendOk with
    | true =>
      have := ho2 hq hs hok
      rw [this] at he
      exact absurd rfl he
    | false => exact ⟨ho3 hq hs hok, hs, rfl⟩
  · left
    exact ⟨ho4 hq hs, hs⟩

/-- Witness of the amended C22: request 1 submitted to the connection as constructed. -/
theorem Query_error_keeps_request_witness :
    Query sampleEsc driverBusy (mkRequest 1 false (some 5) "Q1".toList []) sampleConn
      = some (⟨SQLerrorNum.BAD_CONN, "Can't query until connection is complete".toList⟩,
          queuedWhileConnecting) ∧
    (queuedWhileConnecting.queue.priority.map (fun x => x.id)
      = sampleConn.queue.priority.map (fun x => x.id)
        ++ (if (mkRequest 1 false (some 5) "Q1".toList []).pri = true
            then [(mkRequest 1 false (some 5) "Q1".toList []).id] else []) ∧
    queuedWhileConnecting.queue.normal.map (fun x => x.id)
      = sampleConn.queue.normal.map (fun x => x.id)
        ++ (if (mkRequest 1 false (some 5) "Q1".toList []).pri = true
            then [] else [(mkRequest 1 false (some 5) "Q1".toList []).id]) ∧
    queuedWhileConnecting.queue.totalsize = sampleConn.queue.totalsize + 1 ∧
    sampleConn.qinprog = false ∧ queuedWhileConnecting.qinprog = false ∧
    (((⟨SQLerrorNum.BAD_CONN, "Can't query until connection is complete".toList⟩
          : SQLerror).id = SQLerrorNum.BAD_CONN ∧
        ¬ (sampleConn.status = SQLstatus.WREAD ∨ sampleConn.status = SQLstatus.WWRITE)) ∨
     ((⟨SQLerrorNum.BAD_CONN, "Can't query until connection is complete".toList⟩ : SQLerror)
          = ⟨SQLerrorNum.QSEND_FAIL, driverBusy.errmsg⟩ ∧
        (sampleConn.status = SQLstatus.WREAD ∨ sampleConn.status = SQLstatus.WWRITE) ∧
        driverBusy.sendOk = false))) :=
  ⟨by decide,
   Query_error_keeps_request sampleEsc driverBusy (mkRequest 1 false (some 5) "Q1".toList [])
    sampleConn queuedWhileConnecting
    ⟨SQLerrorNum.BAD_CONN, "Can't query until connection is complete".toList⟩
    ⟨fun h => absurd h (by decide), fun h => absurd h (by decide)⟩
    (by decide) (by decide)⟩

end SQLConn

/-! ## What a failed dispatch does to the request -/

theorem buildQuery_of_no_placeholder (esc : List Char → List Char) (t : List Char)
    (p : List (List Char)) (h : '?' ∉ t) : buildQuery esc t p [] = (t, p) := by
  induction t with
  | nil => rfl
  | cons c cs ih =>
    have hc : c ≠ '?' := fun e => h (e ▸ List.mem_cons_self _ _)
    have hcs : '?' ∉ cs := fun e => h (List.mem_cons_of_mem _ e)
    simp only [buildQuery, hc, if_false]
    rw [buildQuery_out, ih hcs]
    rfl

theorem buildQuery_nil_params (esc : List Char → List Char) (t : List Char) :
    (buildQuery esc t [] []).1 = t.takeWhile (fun ch => ch != '?') := by
  induction t with
  | nil => rfl
  | cons c cs ih =>
    by_cases hc : c = '?'
    · subst hc
      simp [buildQuery, List.takeWhile]
    · have hb : (c != '?') = true := by simpa using hc
      simp only [buildQuery, hc, if_false, List.takeWhile, hb]
      rw [buildQuery_out, ih]
      rfl

theorem takeWhile_ne_of_mem (t : List Char) (h : '?' ∈ t) :
    t.takeWhile (fun ch => ch != '?') ≠ t := by
  intro heq
  rw [← heq] at h
  have := List.mem_takeWhile_imp h
  simp at this

namespace SQLConn

/-- C23 as stated fails: on the ready connection whose queue holds the request with the
template `SELECT ?` and the parameter `a?b`, a pass of `DoConnectedPoll` in which the
driver rejects the text leaves the request queued with the template `SELECT a?b` and no
parameter; the next pass builds and submits `SELECT a`, not the text of the first
attempt. -/
theorem rejected_request_is_rewritten :
    (DoConnectedPoll pgEscape (fun _ => driverReject) retryConn).map
        (fun r => (r.2.queue.normal.map (fun q => q.query), r.2.trace))
      = some ([⟨"SELECT a?b".toList, []⟩], [Event.send 1 "SELECT a?b".toList false 0])
    ∧ retryConn.queue.normal.map (fun q => q.query)
      = [⟨"SELECT ?".toList, ["a?b".toList]⟩]
    ∧ ((DoConnectedPoll pgEscape (fun _ => driverReject) retryConn).bind
        (fun r => DoConnectedPoll pgEscape (fun _ => driverBusy) r.2)).map
        (fun r => r.2.trace)
      = some [Event.send 1 "SELECT a?b".toList false 0,
              Event.send 1 "SELECT a".toList true 0] := by
  decide

/-- C23, amended: when `DoQuery` returns an error, either the error is `BAD_CONN` and the
request and the connection are as they were, or it is `QSEND_FAIL` with the driver's
message and the request has been rewritten: its template is the text built and its
parameter list what the substitution left. A later `DoQuery` on that request, on the
connection as the first left it, builds its text from the rewritten template and the
parameters left; that text is the one of the first attempt when the text built holds no
`?`, and when the text built holds a `?` and no parameter is left it is the text built cut
before its first `?`, which differs from the first attempt. -/
theorem DoQuery_error_effect_on_request (esc : List Char → List Char) (a : Answers)
    (req : SQLrequest) (c : SQLConn)
    (he : (DoQuery esc a req c).1.id ≠ SQLerrorNum.NO_ERROR) :
    ((DoQuery esc a req c).1.id = SQLerrorNum.BAD_CONN ∧
      (DoQuery esc a req c).2.1 = req ∧ (DoQuery esc a req c).2.2 = c) ∨
    ((DoQuery esc a req c).1 = ⟨SQLerrorNum.QSEND_FAIL, a.errmsg⟩ ∧
      (DoQuery esc a req c).2.1
        = { req with query := ⟨(buildQuery esc req.query.q req.query.p []).1,
                                (buildQuery esc req.query.q req.query.p []).2⟩ } ∧
      (∀ a2 : Answers,
        (DoQuery esc a2 (DoQuery esc a req c).2.1 (DoQuery esc a req c).2.2).2.2.trace
          = (DoQuery esc a req c).2.2.trace ++ [Event.send req.id
              (buildQuery esc (buildQuery esc req.query.q req.query.p []).1
                (buildQuery esc req.query.q req.query.p []).2 []).1
              a2.sendOk c.sql.pending]) ∧
      ('?' ∉ (buildQuery esc req.query.q req.query.p []).1 →
        (buildQuery esc (buildQuery esc req.query.q req.query.p []).1
            (buildQuery esc req.query.q req.query.p []).2 []).1
          = (buildQuery esc req.query.q req.query.p []).1) ∧
      ('?' ∈ (buildQuery esc req.query.q req.query.p []).1 →
        (buildQuery esc req.query.q req.query.p []).2 = [] →
        (buildQuery esc (buildQuery esc req.query.q req.query.p []).1
            (buildQuery esc req.query.q req.query.p []).2 []).1
          = (buildQuery esc req.query.q req.query.p []).1.takeWhile (fun ch => ch != '?') ∧
        (buildQuery esc (buildQuery esc req.query.q req.query.p []).1
            (buildQuery esc req.query.q req.query.p []).2 []).1
          ≠ (buildQuery esc req.query.q req.query.p []).1)) := by
  by_cases hs : c.status = SQLstatus.WREAD ∨ c.status = SQLstatus.WWRITE
  · cases hq : c.qinprog with
    | true =>
      left
      unfold DoQuery
      rw [if_pos hs, if_neg (by simp [hq])]
      exact ⟨rfl, rfl, rfl⟩
    | false =>
      cases hok : a.sendOk with
      | true =>
        exfalso
        apply he
        unfold DoQuery
        rw [if_pos hs, if_pos hq]
        simp [hok, SQLerror.none]
      | false =>
        right
        have hD : DoQuery esc a req c
            = (⟨SQLerrorNum.QSEND_FAIL, a.errmsg⟩,
                { req with query := ⟨(buildQuery esc req.query.q req.query.p []).1,
                                      (buildQuery esc req.query.q req.query.p []).2⟩ },
                { c with trace := c.trace ++ [Event.send req.id
                    (buildQuery esc req.query.q req.query.p []).1 false c.sql.pending] }) := by
          unfold DoQuery
          rw [if_pos hs, if_pos hq]
          simp [hok]
        refine ⟨by rw [hD], by rw [hD], ?_, ?_, ?_⟩
        · intro a2
          rw [hD]
          exact trace_DoQuery esc a2 _ _ hs hq
        · intro hno
          rw [buildQuery_of_no_placeholder esc _ _ hno]
        · intro hmem hnil
          rw [hnil, buildQuery_nil_params]
          exact ⟨rfl, takeWhile_ne_of_mem _ hmem⟩
  · left
    unfold DoQuery
    rw [if_neg hs]
    exact ⟨rfl, rfl, rfl⟩

/-- Witness of the amended C23: the request with the parameter `a?b` on the ready
connection, the driver rejecting the text. -/
theorem DoQuery_error_effect_on_request_witness :
    (DoQuery pgEscape driverReject retryRequest readyConn).1.id ≠ SQLerrorNum.NO_ERROR ∧
    (((DoQuery pgEscape driverReject retryRequest readyConn).1.id = SQLerrorNum.BAD_CONN ∧
      (DoQuery pgEscape driverReject retryRequest readyConn).2.1 = retryRequest ∧
      (DoQuery pgEscape driverReject retryRequest readyConn).2.2 = readyConn) ∨
    ((DoQuery pgEscape driverReject retryRequest readyConn).1
        = ⟨SQLerrorNum.QSEND_FAIL, driverReject.errmsg⟩ ∧
      (DoQuery pgEscape driverReject retryRequest readyConn).2.1
        = { retryRequest with
            query := ⟨(buildQuery pgEscape retryRequest.query.q retryRequest.query.p []).1,
                      (buildQuery pgEscape retryRequest.query.q retryRequest.query.p []).2⟩ } ∧
      (∀ a2 : Answers,
        (DoQuery pgEscape a2 (DoQuery pgEscape driverReject retryRequest readyConn).2.1
            (DoQuery pgEscape driverReject retryRequest readyConn).2.2).2.2.trace
          = (DoQuery pgEscape driverReject retryRequest readyConn).2.2.trace
            ++ [Event.send retryRequest.id
              (buildQuery pgEscape
                (buildQuery pgEscape retryRequest.query.q retryRequest.query.p []).1
                (buildQuery pgEscape retryRequest.query.q retryRequest.query.p []).2 []).1
              a2.sendOk readyConn.sql.pending]) ∧
      ('?' ∉ (buildQuery pgEscape retryRequest.query.q retryRequest.query.p []).1 →
        (buildQuery pgEscape
            (buildQuery pgEscape retryRequest.query.q retryRequest.query.p []).1
            (buildQuery pgEscape retryRequest.query.q retryRequest.query.p []).2 []).1
          = (buildQuery pgEscape retryRequest.query.q retryRequest.query.p []).1) ∧
      ('?' ∈ (buildQuery pgEscape retryRequest.query.q retryRequest.query.p []).1 →
        (buildQuery pgEscape retryRequest.query.q retryRequest.query.p []).2 = [] →
        (buildQuery pgEscape
            (buildQuery pgEscape retryRequest.query.q retryRequest.query.p []).1
            (buildQuery pgEscape retryRequest.query.q retryRequest.query.p []).2 []).1
          = (buildQuery pgEscape retryRequest.query.q retryRequest.query.p []).1.takeWhile
              (fun ch => ch != '?') ∧
        (buildQuery pgEscape
            (buildQuery pgEscape retryRequest.query.q retryRequest.query.p []).1
            (buildQuery pgEscape retryRequest.query.q retryRequest.query.p []).2 []).1
          ≠ (buildQuery pgEscape retryRequest.query.q retryRequest.query.p []).1))) :=
  ⟨by decide,
   DoQuery_error_effect_on_request pgEscape driverReject retryRequest readyConn (by decide)⟩

end SQLConn

/-! ## A pass of `DoConnectedPoll` that consumes a result -/

namespace SQLConn

theorem trace_DoQuery_extends (esc : List Char → List Char) (a : Answers) (req : SQLrequest)
    (c : SQLConn) : ∃ r, (DoQuery esc a req c).2.2.trace = c.trace ++ r := by
  unfold DoQuery
  split_ifs
  · exact ⟨_, rfl⟩
  · exact ⟨_, rfl⟩
  · exact ⟨[], (List.append_nil _).symm⟩
  · exact ⟨[], (List.append_nil _).symm⟩

theorem dispatch_total (esc : List Char → List Char) (a : Answers) (c : SQLConn)
    (hp : c.queue.PinOK) (hq : c.qinprog = true → c.queue.totalsize ≠ 0) :
    ∃ e c1, dispatch esc a c = some (e, c1) ∧ c1.queue.PinOK ∧
      (c1.qinprog = true → c1.queue.totalsize ≠ 0) ∧ ∃ r, c1.trace = c.trace ++ r := by
  by_cases hcond : c.qinprog = false ∧ c.queue.totalsize ≠ 0
  · obtain ⟨query, qq, hf⟩ := QueryQueue.front_defined hp hcond.2
    have ha := QueryQueue.active_setFront (DoQuery esc a query { c with queue := qq }).2.1
      (QueryQueue.active_of_front hf)
    refine ⟨_, _, dispatch_of_front hcond.1 hf, ?_, ?_, ?_⟩
    · show ((DoQuery esc a query { c with queue := qq }).2.2.queue.setFront _).PinOK
      rw [queue_DoQuery]
      exact QueryQueue.pinOK_of_active ha
    · intro _
      show ((DoQuery esc a query { c with queue := qq }).2.2.queue.setFront _).totalsize ≠ 0
      rw [queue_DoQuery]
      exact QueryQueue.totalsize_ne_zero_of_active ha
    · exact trace_DoQuery_extends esc a query { c with queue := qq }
  · refine ⟨SQLerror.none, c, ?_, hp, hq, [], (List.append_nil _).symm⟩
    unfold dispatch
    rw [if_neg hcond]

theorem DoConnectedPollAux_noinput {esc : List Char → List Char} {drv : Nat → Answers}
    {fuel depth : Nat} {c c1 : SQLConn} {e : SQLerror} (h : c.queue.totalsize < fuel + 1)
    (hd : dispatch esc (drv depth) c = some (e, c1))
    (hc : (drv depth).consumeOk = false) :
    DoConnectedPollAux esc drv (fuel + 1) depth c h = some (false, c1) := by
  rw [DoConnectedPollAux]
  split
  · rename_i hd1
    rw [hd] at hd1
    exact absurd hd1 (by simp)
  · rename_i e1 c2 hd1
    have he : (e1, c2) = (e, c1) := by
      rw [hd] at hd1
      exact (Option.some.inj hd1).symm
    obtain ⟨-, rfl⟩ := Prod.mk.inj he
    simp [hc]

theorem DoConnectedPollAux_total (esc : List Char → List Char) (drv : Nat → Answers) :
    ∀ (fuel depth : Nat) (c : SQLConn) (h : c.queue.totalsize < fuel), c.queue.PinOK →
      (c.qinprog = true → c.queue.totalsize ≠ 0) →
      ∃ b cfin rest, DoConnectedPollAux esc drv fuel depth c h = some (b, cfin) ∧
        cfin.trace = c.trace ++ rest := by
  intro fuel
  induction fuel with
  | zero => intro depth c h; exact absurd h (Nat.not_lt_zero _)
  | succ fuel ih =>
    intro depth c h hp hq
    obtain ⟨e, c1, hd, hp1, hq1, r, hr⟩ := dispatch_total esc (drv depth) c hp hq
    cases hc : (drv depth).consumeOk with
    | false => exact ⟨false, c1, r, DoConnectedPollAux_noinput h hd hc, hr⟩
    | true =>
      cases hb : (drv depth).busy with
      | true => exact ⟨true, c1, r, DoConnectedPollAux_busy h hd hc hb, hr⟩
      | false =>
        cases hq2 : c1.qinprog with
        | false =>
          refine ⟨true, c1, r, ?_, hr⟩
          rw [DoConnectedPollAux_idle h hd hq2, hc]
        | true =>
          obtain ⟨query, qq, hf⟩ := QueryQueue.front_defined hp1 (hq1 hq2)
          have h2 : (afterResult (drv depth) query qq c1).queue.totalsize < fuel := by
            have e1 := totalsize_of_dispatch hd
            have e2 := QueryQueue.totalsize_of_front hf
            have e3 := QueryQueue.totalsize_pop_of_front hf
            show qq.pop.totalsize < fuel
            omega
          obtain ⟨b, cfin, rest, hrec, htr⟩ := ih (depth + 1)
            (afterResult (drv depth) query qq c1) h2 (QueryQueue.pinOK_pop qq)
            (fun hx => absurd hx (by simp [afterResult]))
          refine ⟨true, cfin, r ++ [deliver query (fetchResults (drv depth).results).kept]
            ++ rest, ?_, ?_⟩
          · rw [DoConnectedPollAux_result h hd hc hb hq2 hf h2, hrec]
            rfl
          · rw [htr]
            simp [afterResult, hr]

theorem DoConnectedPollAux_consumes {esc : List Char → List Char} {drv : Nat → Answers}
    {fuel depth : Nat} {c c1 : SQLConn} {e : SQLerror} {query : SQLrequest}
    {qq : QueryQueue} (h : c.queue.totalsize < fuel + 1)
    (hd : dispatch esc (drv depth) c = some (e, c1)) (hc : (drv depth).consumeOk = true)
    (hb : (drv depth).busy = false) (hq : c1.qinprog = true)
    (hf : c1.queue.front = some (query, qq)) :
    ∃ (cfin : SQLConn) (rest : List Event) (b : Bool)
      (h2 : (afterResult (drv depth) query qq c1).queue.totalsize < fuel),
      DoConnectedPollAux esc drv (fuel + 1) depth c h = some (true, cfin) ∧
      DoConnectedPollAux esc drv fuel (depth + 1) (afterResult (drv depth) query qq c1) h2
        = some (b, cfin) ∧
      cfin.trace = (afterResult (drv depth) query qq c1).trace ++ rest := by
  have h2 : (afterResult (drv depth) query qq c1).queue.totalsize < fuel := by
    have e1 := totalsize_of_dispatch hd
    have e2 := QueryQueue.totalsize_of_front hf
    have e3 := QueryQueue.totalsize_pop_of_front hf
    show qq.pop.totalsize < fuel
    omega
  obtain ⟨b, cfin, rest, hrec, htr⟩ := DoConnectedPollAux_total esc drv fuel (depth + 1)
    (afterResult (drv depth) query qq c1) h2 (QueryQueue.pinOK_pop qq)
    (fun hx => absurd hx (by simp [afterResult]))
  refine ⟨cfin, rest, b, h2, ?_, hrec, htr⟩
  rw [DoConnectedPollAux_result h hd hc hb hq hf h2, hrec]
  rfl

theorem queue_afterResult {c1 : SQLConn} {query : SQLrequest} {qq : QueryQueue}
    (a : Answers) (hf : c1.queue.front = some (query, qq)) :
    (qq.which = Which.PRI ∧
        c1.queue.priority = query :: (afterResult a query qq c1).queue.priority ∧
        (afterResult a query qq c1).queue.normal = c1.queue.normal) ∨
    (qq.which = Which.NOR ∧
        c1.queue.normal = query :: (afterResult a query qq c1).queue.normal ∧
        (afterResult a query qq c1).queue.priority = c1.queue.priority) := by
  show (qq.which = Which.PRI ∧ c1.queue.priority = query :: qq.pop.priority ∧
      qq.pop.normal = c1.queue.normal) ∨
    (qq.which = Which.NOR ∧ c1.queue.normal = query :: qq.pop.normal ∧
      qq.pop.priority = c1.queue.priority)
  generalize c1.queue = q0 at hf
  obtain ⟨p, n, w⟩ := q0
  unfold QueryQueue.front at hf
  cases w <;> cases p <;> cases n <;>
    simp at hf <;>
    (obtain ⟨hx, hy⟩ := hf; subst hx; subst hy; simp [QueryQueue.pop])

/-- C12: when a pass of `DoConnectedPoll` consumes the result of the active request `query`
(input consumed, driver not busy, `qinprog` set, `front()` returning `query`), the pass
returns `true` with a state `cfin`. The state `c2` it reaches before calling itself has
one event more than the state `c1` after the dispatch block: a result object with the id
of `query` sent to its source when the source is non-null, and a released result, nothing
being sent, when the source is null. In `c2`, `qinprog` is false and exactly `query`, the
head of the pinned deque, has been removed, the other deque being untouched; `cfin` is what
the recursive call on `c2` returns, and its trace continues that of `c2`. -/
theorem result_sent_iff_source_present (esc : List Char → List Char) (drv : Nat → Answers)
    (fuel depth : Nat) (c c1 : SQLConn) (e : SQLerror) (query : SQLrequest)
    (qq : QueryQueue) (h : c.queue.totalsize < fuel + 1)
    (hd : dispatch esc (drv depth) c = some (e, c1))
    (hc : (drv depth).consumeOk = true) (hb : (drv depth).busy = false)
    (hq : c1.qinprog = true) (hf : c1.queue.front = some (query, qq)) :
    ∃ (c2 cfin : SQLConn) (rest : List Event),
      DoConnectedPollAux esc drv (fuel + 1) depth c h = some (true, cfin) ∧
      (fuel = c.queue.totalsize → depth = 0 →
        DoConnectedPoll esc drv c = some (true, cfin)) ∧
      (∀ dest, query.source = some dest →
        c2.trace = c1.trace
          ++ [Event.reply query.id dest (fetchResults (drv depth).results).kept]) ∧
      (query.source = Option.none →
        c2.trace = c1.trace
          ++ [Event.zombie query.id (fetchResults (drv depth).results).kept]) ∧
      c2.qinprog = false ∧
      ((qq.which = Which.PRI ∧ c1.queue.priority = query :: c2.queue.priority ∧
          c2.queue.normal = c1.queue.normal) ∨
       (qq.which = Which.NOR ∧ c1.queue.normal = query :: c2.queue.normal ∧
          c2.queue.priority = c1.queue.priority)) ∧
      (∃ h2 b, DoConnectedPollAux esc drv fuel (depth + 1) c2 h2 = some (b, cfin)) ∧
      cfin.trace = c2.trace ++ rest := by
  obtain ⟨cfin, rest, b, h2, hpass, hrec, htr⟩ := DoConnectedPollAux_consumes h hd hc hb hq hf
  refine ⟨afterResult (drv depth) query qq c1, cfin, rest, hpass, ?_, ?_, ?_, rfl,
    queue_afterResult (drv depth) hf, ⟨h2, b, hrec⟩, htr⟩
  · intro hfuel hdepth
    subst hfuel
    subst hdepth
    exact hpass
  · intro dest hs
    simp [afterResult, deliver, hs]
  · intro hs
    simp [afterResult, deliver, hs]

/-- Witness of C12: the sample connection with request 1 in flight and a driver that has
the result ready. -/
theorem result_sent_iff_source_present_witness :
    ∃ (c2 cfin : SQLConn) (rest : List Event),
      DoConnectedPollAux sampleEsc (fun _ => driverDone) (1 + 1) 0 inFlightConn (by decide)
        = some (true, cfin) ∧
      (1 = inFlightConn.queue.totalsize → 0 = 0 →
        DoConnectedPoll sampleEsc (fun _ => driverDone) inFlightConn = some (true, cfin)) ∧
      (∀ dest, (mkRequest 1 false (some 5) "Q1".toList []).source = some dest →
        c2.trace = inFlightConn.trace
          ++ [Event.reply (mkRequest 1 false (some 5) "Q1".toList []).id dest
                (fetchResults driverDone.results).kept]) ∧
      ((mkRequest 1 false (some 5) "Q1".toList []).source = Option.none →
        c2.trace = inFlightConn.trace
          ++ [Event.zombie (mkRequest 1 false (some 5) "Q1".toList []).id
                (fetchResults driverDone.results).kept]) ∧
      c2.qinprog = false ∧
      ((inFlightConn.queue.which = Which.PRI ∧
          inFlightConn.queue.priority
            = mkRequest 1 false (some 5) "Q1".toList [] :: c2.queue.priority ∧
          c2.queue.normal = inFlightConn.queue.normal) ∨
       (inFlightConn.queue.which = Which.NOR ∧
          inFlightConn.queue.normal
            = mkRequest 1 false (some 5) "Q1".toList [] :: c2.queue.normal ∧
          c2.queue.priority = inFlightConn.queue.priority)) ∧
      (∃ h2 b, DoConnectedPollAux sampleEsc (fun _ => driverDone) 1 (0 + 1) c2 h2
        = some (b, cfin)) ∧
      cfin.trace = c2.trace ++ rest :=
  result_sent_iff_source_present sampleEsc (fun _ => driverDone) 1 0 inFlightConn
    inFlightConn SQLerror.none (mkRequest 1 false (some 5) "Q1".toList [])
    inFlightConn.queue (by decide) (by decide) (by decide) (by decide) (by decide)
    (by decide)

/-- C13: for every non-empty sequence of results the driver has buffered for the active
request, a pass of `DoConnectedPoll` that consumes them returns, and the one event it
records for the request before calling itself carries the last element of the sequence,
sent to the source when it is non-null and released when it is null. The fetching loop
gives every earlier element to `PQclear`, none of them being in an event, and leaves
nothing buffered; the driver holds one unfetched command less. With two results the one
delivered is the second. -/
theorem last_result_is_delivered (esc : List Char → List Char) (drv : Nat → Answers)
    (fuel depth : Nat) (c c1 : SQLConn) (e : SQLerror) (query : SQLrequest)
    (qq : QueryQueue) (results : List PGresult) (h : c.queue.totalsize < fuel + 1)
    (hd : dispatch esc (drv depth) c = some (e, c1))
    (hc : (drv depth).consumeOk = true) (hb : (drv depth).busy = false)
    (hq : c1.qinprog = true) (hf : c1.queue.front = some (query, qq))
    (hres : (drv depth).results = results) (hne : results ≠ []) :
    ∃ (c2 cfin : SQLConn) (rest : List Event),
      DoConnectedPollAux esc drv (fuel + 1) depth c h = some (true, cfin) ∧
      (fuel = c.queue.totalsize → depth = 0 →
        DoConnectedPoll esc drv c = some (true, cfin)) ∧
      (∀ dest, query.source = some dest →
        c2.trace = c1.trace ++ [Event.reply query.id dest (some (results.getLast hne))]) ∧
      (query.source = Option.none →
        c2.trace = c1.trace ++ [Event.zombie query.id (some (results.getLast hne))]) ∧
      (∃ h2 b, DoConnectedPollAux esc drv fuel (depth + 1) c2 h2 = some (b, cfin)) ∧
      cfin.trace = c2.trace ++ rest ∧
      c2.sql.pending = c1.sql.pending - 1 ∧
      (fetchResults results).kept = some (results.getLast hne) ∧
      (fetchResults results).cleared = results.dropLast ∧
      (fetchResults results).buffered = [] ∧
      (∀ r1 r2 : PGresult, results = [r1, r2] →
        (fetchResults results).kept = some r2 ∧ (fetchResults results).cleared = [r1]) := by
  obtain ⟨cfin, rest, b, h2, hpass, hrec, htr⟩ := DoConnectedPollAux_consumes h hd hc hb hq hf
  have hfetch : fetchResults results
      = ⟨some (results.getLast hne), results.dropLast, []⟩ := by
    cases results with
    | nil => exact absurd rfl hne
    | cons r rs =>
      rw [fetchResults_cons, List.getLast?_eq_getLast _ hne]
  refine ⟨afterResult (drv depth) query qq c1, cfin, rest, hpass, ?_, ?_, ?_, ⟨h2, b, hrec⟩,
    htr, rfl, by rw [hfetch], by rw [hfetch], by rw [hfetch], ?_⟩
  · intro hfuel hdepth
    subst hfuel
    subst hdepth
    exact hpass
  · intro dest hs
    simp [afterResult, deliver, hs, hres, hfetch]
  · intro hs
    simp [afterResult, deliver, hs, hres, hfetch]
  · intro r1 r2 h12
    subst h12
    rw [fetchResults_cons]
    exact ⟨rfl, rfl⟩

/-- Witness of C13: request 1 in flight and a driver that has buffered the two results of
a query text of two statements. -/
theorem last_result_is_delivered_witness :
    ∃ (c2 cfin : SQLConn) (rest : List Event),
      DoConnectedPollAux sampleEsc (fun _ => driverTwo) (1 + 1) 0 inFlightConn (by decide)
        = some (true, cfin) ∧
      (1 = inFlightConn.queue.totalsize → 0 = 0 →
        DoConnectedPoll sampleEsc (fun _ => driverTwo) inFlightConn = some (true, cfin)) ∧
      (∀ dest, (mkRequest 1 false (some 5) "Q1".toList []).source = some dest →
        c2.trace = inFlightConn.trace
          ++ [Event.reply (mkRequest 1 false (some 5) "Q1".toList []).id dest
                (some (twoResults.getLast (by decide)))]) ∧
      ((mkRequest 1 false (some 5) "Q1".toList []).source = Option.none →
        c2.trace = inFlightConn.trace
          ++ [Event.zombie (mkRequest 1 false (some 5) "Q1".toList []).id
                (some (twoResults.getLast (by decide)))]) ∧
      (∃ h2 b, DoConnectedPollAux sampleEsc (fun _ => driverTwo) 1 (0 + 1) c2 h2
        = some (b, cfin)) ∧
      cfin.trace = c2.trace ++ rest ∧
      c2.sql.pending = inFlightConn.sql.pending - 1 ∧
      (fetchResults twoResults).kept = some (twoResults.getLast (by decide)) ∧
      (fetchResults twoResults).cleared = twoResults.dropLast ∧
      (fetchResults twoResults).buffered = [] ∧
      (∀ r1 r2 : PGresult, twoResults = [r1, r2] →
        (fetchResults twoResults).kept = some r2 ∧
        (fetchResults twoResults).cleared = [r1]) :=
  last_result_is_delivered sampleEsc (fun _ => driverTwo) 1 0 inFlightConn
    inFlightConn SQLerror.none (mkRequest 1 false (some 5) "Q1".toList [])
    inFlightConn.queue twoResults (by decide) (by decide) (by decide) (by decide)
    (by decide) (by decide) (by decide) (by decide)

end SQLConn

/-! ## The name-keyed row in general -/

namespace PgSQLresult

theorem lookup_insert (m : SQLfieldMap) (e : List Char × SQLfield) (k : List Char) :
    (SQLfieldMap.insert m e).lookup k = (m ++ [e]).lookup k := by
  unfold SQLfieldMap.insert
  split_ifs with h
  · rw [List.lookup_append]
    by_cases hk : k = e.1
    · obtain ⟨x, hx, hxe⟩ := List.any_eq_true.1 h
      have hx1 : x.1 = k := by rw [hk]; exact eq_of_beq hxe
      cases hl : m.lookup k with
      | none =>
        rw [List.lookup_eq_none_iff] at hl
        have := hl x hx
        rw [hx1] at this
        simp at this
      | some v => rfl
    · have hs : List.lookup k [e] = Option.none := by
        rw [List.lookup_eq_none_iff]
        intro p hp
        rw [List.mem_singleton] at hp
        subst hp
        simpa using hk
      rw [hs]
      cases m.lookup k <;> rfl
  · rfl

theorem lookup_foldl_insert (l : List (List Char × SQLfield)) :
    ∀ (m : SQLfieldMap) (k : List Char),
      (l.foldl SQLfieldMap.insert m).lookup k = (m ++ l).lookup k := by
  induction l with
  | nil => intro m k; simp
  | cons e es ih =>
    intro m k
    rw [List.foldl_cons, ih, List.lookup_append, lookup_insert, List.lookup_append,
      List.lookup_append]
    have hc : List.lookup k (e :: es) = (List.lookup k [e]).or (List.lookup k es) := by
      rw [← List.lookup_append]
      rfl
    rw [hc]
    cases m.lookup k <;> cases List.lookup k [e] <;> rfl

theorem keys_insert (m : SQLfieldMap) (e : List Char × SQLfield) :
    ((m.map Prod.fst).Nodup → ((SQLfieldMap.insert m e).map Prod.fst).Nodup) ∧
    ∀ k, k ∈ (SQLfieldMap.insert m e).map Prod.fst ↔ k ∈ m.map Prod.fst ∨ k = e.1 := by
  unfold SQLfieldMap.insert
  split_ifs with h
  · refine ⟨fun hn => hn, fun k => ⟨fun hk => Or.inl hk, fun hk => ?_⟩⟩
    rcases hk with hk | hk
    · exact hk
    · obtain ⟨x, hx, hxe⟩ := List.any_eq_true.1 h
      rw [hk, ← eq_of_beq hxe]
      exact List.mem_map_of_mem Prod.fst hx
  · refine ⟨fun hn => ?_, fun k => by simp⟩
    rw [List.map_append, List.nodup_append]
    refine ⟨hn, by simp, ?_⟩
    intro a ha hb
    rw [List.map_singleton, List.mem_singleton] at hb
    obtain ⟨x, hx, hxa⟩ := List.mem_map.1 ha
    apply h
    rw [List.any_eq_true]
    exact ⟨x, hx, by rw [hxa, hb]; exact beq_self_eq_true _⟩

theorem keys_foldl_insert (l : List (List Char × SQLfield)) :
    ∀ (m : SQLfieldMap),
      ((m.map Prod.fst).Nodup → ((l.foldl SQLfieldMap.insert m).map Prod.fst).Nodup) ∧
      ∀ k, k ∈ (l.foldl SQLfieldMap.insert m).map Prod.fst
        ↔ k ∈ m.map Prod.fst ∨ k ∈ l.map Prod.fst := by
  induction l with
  | nil => intro m; simp
  | cons e es ih =>
    intro m
    obtain ⟨h1, h2⟩ := keys_insert m e
    obtain ⟨h3, h4⟩ := ih (SQLfieldMap.insert m e)
    refine ⟨fun hn => h3 (h1 hn), fun k => ?_⟩
    rw [List.foldl_cons, h4, h2, List.map_cons, List.mem_cons, or_assoc]

theorem mapLoop_eq_foldl (o : PgSQLresult) (t : List SQLfield)
    (ht : o.res.tuples[o.currentrow]? = some t) :
    ∀ (is : List Nat) (fm : SQLfieldMap), (∀ i ∈ is, i < t.length) →
      mapLoop o is fm
        = some ((is.map (fun i => (o.ColName i, t.getD i ([], false)))).foldl
            SQLfieldMap.insert fm) := by
  intro is
  induction is with
  | nil => intro fm _; simp [mapLoop]
  | cons i is ih =>
    intro fm h
    have hi : i < t.length := h i (List.mem_cons_self _ _)
    have hv : o.GetValue o.currentrow i = some (t.getD i ([], false)) := by
      simp [GetValue, PQgetvalue, ht, List.getD_eq_getElem?_getD,
        List.getElem?_eq_getElem hi]
    rw [mapLoop, hv]
    simp only
    rw [ih _ (fun j hj => h j (List.mem_cons_of_mem _ hj))]
    rfl

theorem lookup_range_first {β : Type} (f : Nat → List Char) (g : Nat → β) :
    ∀ (n i : Nat), i < n →
      ∃ j, j ≤ i ∧ f j = f i ∧ (∀ k, k < j → f k ≠ f i) ∧
        ((List.range n).map (fun x => (f x, g x))).lookup (f i) = some (g j) := by
  intro n
  induction n with
  | zero => intro i hi; exact absurd hi (Nat.not_lt_zero _)
  | succ n ih =>
    intro i hi
    rw [List.range_succ, List.map_append, List.lookup_append]
    by_cases hex : ∃ i2, i2 < n ∧ f i2 = f i
    · obtain ⟨i2, hi2, hfi⟩ := hex
      obtain ⟨j, hj1, hj2, hj3, hj4⟩ := ih i2 hi2
      rw [hfi] at hj2 hj3 hj4
      have hji : j ≤ i := by
        by_contra hlt
        exact hj3 i (by omega) rfl
      refine ⟨j, hji, hj2, hj3, ?_⟩
      rw [hj4]
      rfl
    · have hin : i = n := by
        by_contra hne
        exact hex ⟨i, by omega, rfl⟩
      subst hin
      have hnone : ((List.range i).map (fun x => (f x, g x))).lookup (f i) = Option.none := by
        rw [List.lookup_eq_none_iff]
        intro p hp
        obtain ⟨x, hx, hxp⟩ := List.mem_map.1 hp
        rw [← hxp]
        have hxi : f x ≠ f i := fun hh => hex ⟨x, List.mem_range.1 hx, hh⟩
        simpa using fun hh => hxi hh.symm
      refine ⟨i, Nat.le_refl _, rfl, fun k hk hh => hex ⟨k, hk, hh⟩, ?_⟩
      rw [hnone]
      simp [List.lookup_cons]

/-- C17, amended: for every well-formed result and every row within range, `GetRow` and
`GetRowMap` both return and advance the cursor alike. The map has one entry for each
column name of the result, and for every column index `i` its entry under `ColName(i)` is
the field `GetRow` returns for the first column that has that name. When the column names
are pairwise distinct that column is `i` itself: the map has one entry per column and its
entry under `ColName(i)` is the `i`-th field of the list. -/
theorem GetRowMap_matches_GetRow (o : PgSQLresult) (hwf : o.res.WellFormed)
    (hr : o.currentrow < PQntuples o.res) :
    ∃ (fl : List SQLfield) (fm : SQLfieldMap),
      o.GetRow = some (fl, { o with currentrow := o.currentrow + 1 }) ∧
      o.GetRowMap = some (fm, { o with currentrow := o.currentrow + 1 }) ∧
      (fm.map Prod.fst).Nodup ∧
      (∀ name, name ∈ fm.map Prod.fst ↔ name ∈ o.res.fnames) ∧
      (∀ i, i < PQnfields o.res →
        ∃ j v, j ≤ i ∧ o.ColName j = o.ColName i ∧ (∀ k, k < j → o.ColName k ≠ o.ColName i) ∧
          fl[j]? = some v ∧ fm.lookup (o.ColName i) = some v) ∧
      (o.res.fnames.Nodup →
        fm.length = PQnfields o.res ∧
        ∀ i, i < PQnfields o.res →
          ∃ v, fl[i]? = some v ∧ fm.lookup (o.ColName i) = some v) := by
  have ht : o.res.tuples[o.currentrow]? = some o.res.tuples[o.currentrow] :=
    List.getElem?_eq_getElem hr
  have hlen : (o.res.tuples[o.currentrow]).length = o.res.fnames.length :=
    hwf _ (List.getElem_mem _)
  have hc : o.ColName = fun i => o.res.fnames.getD i [] := by
    funext i
    simp [ColName, PQfname, List.getD_eq_getElem?_getD]
  have hnames : (List.range o.res.fnames.length).map o.ColName = o.res.fnames := by
    rw [hc]
    exact map_getD_range o.res.fnames []
  have hloop := mapLoop_eq_foldl o _ ht (List.range o.res.fnames.length) []
    (fun i hi => by rw [hlen]; exact List.mem_range.1 hi)
  obtain ⟨hk1, hk2⟩ := keys_foldl_insert
    ((List.range o.res.fnames.length).map
      (fun i => (o.ColName i, (o.res.tuples[o.currentrow]).getD i ([], false)))) []
  have hkeys : ((List.range o.res.fnames.length).map
      (fun i => (o.ColName i, (o.res.tuples[o.currentrow]).getD i ([], false)))).map Prod.fst
      = o.res.fnames := by
    rw [List.map_map]
    exact hnames
  have hfirst : ∀ i, i < PQnfields o.res →
      ∃ j v, j ≤ i ∧ o.ColName j = o.ColName i ∧ (∀ k, k < j → o.ColName k ≠ o.ColName i) ∧
        (o.res.tuples[o.currentrow])[j]? = some v ∧
        (((List.range o.res.fnames.length).map
          (fun i => (o.ColName i, (o.res.tuples[o.currentrow]).getD i ([], false)))).foldl
            SQLfieldMap.insert []).lookup (o.ColName i) = some v := by
    intro i hi
    obtain ⟨j, hj1, hj2, hj3, hj4⟩ := lookup_range_first o.ColName
      (fun x => (o.res.tuples[o.currentrow]).getD x ([], false)) o.res.fnames.length i hi
    have hj : j < (o.res.tuples[o.currentrow]).length := by
      rw [hlen]
      exact Nat.lt_of_le_of_lt hj1 hi
    refine ⟨j, (o.res.tuples[o.currentrow]).getD j ([], false), hj1, hj2, hj3, ?_, ?_⟩
    · simp [List.getD_eq_getElem?_getD, List.getElem?_eq_getElem hj]
    · rw [lookup_foldl_insert, List.nil_append]
      exact hj4
  refine ⟨o.res.tuples[o.currentrow], _, GetRow_in_range o hwf _ ht, ?_,
    hk1 List.nodup_nil, ?_, hfirst, ?_⟩
  · unfold GetRowMap
    rw [if_pos hr]
    unfold PQnfields
    rw [hloop]
    rfl
  · intro name
    rw [hk2, hkeys]
    simp
  · intro hnd
    refine ⟨?_, ?_⟩
    · have hperm := (List.perm_ext_iff_of_nodup (hk1 List.nodup_nil) hnd).2
        (fun name => by rw [hk2, hkeys]; simp)
      have := hperm.length_eq
      rw [List.length_map] at this
      exact this
    · intro i hi
      obtain ⟨j, v, hj1, hj2, _, hj4, hj5⟩ := hfirst i hi
      have hi2 : i < o.res.fnames.length := hi
      have hj6 : j < o.res.fnames.length := Nat.lt_of_le_of_lt hj1 hi2
      have heq : o.res.fnames[j] = o.res.fnames[i] := by
        have h1 : o.ColName j = o.res.fnames[j] := by
          rw [hc]
          simp [List.getD_eq_getElem?_getD, List.getElem?_eq_getElem hj6]
        have h2 : o.ColName i = o.res.fnames[i] := by
          rw [hc]
          simp [List.getD_eq_getElem?_getD, List.getElem?_eq_getElem hi2]
        rw [← h1, ← h2]
        exact hj2
      have hji : j = i := (List.Nodup.getElem_inj_iff hnd).1 heq
      subst hji
      exact ⟨v, hj4, hj5⟩

/-- Witness of the amended C17: the one row of a result whose two columns have the same
name. -/
theorem GetRowMap_matches_GetRow_witness :
    ∃ (fl : List SQLfield) (fm : SQLfieldMap),
      (PgSQLresult.new sameNameResult).GetRow
        = some (fl, { PgSQLresult.new sameNameResult with
                      currentrow := (PgSQLresult.new sameNameResult).currentrow + 1 }) ∧
      (PgSQLresult.new sameNameResult).GetRowMap
        = some (fm, { PgSQLresult.new sameNameResult with
                      currentrow := (PgSQLresult.new sameNameResult).currentrow + 1 }) ∧
      (fm.map Prod.fst).Nodup ∧
      (∀ name, name ∈ fm.map Prod.fst ↔ name ∈ (PgSQLresult.new sameNameResult).res.fnames) ∧
      (∀ i, i < PQnfields (PgSQLresult.new sameNameResult).res →
        ∃ j v, j ≤ i ∧
          (PgSQLresult.new sameNameResult).ColName j
            = (PgSQLresult.new sameNameResult).ColName i ∧
          (∀ k, k < j → (PgSQLresult.new sameNameResult).ColName k
            ≠ (PgSQLresult.new sameNameResult).ColName i) ∧
          fl[j]? = some v ∧
          fm.lookup ((PgSQLresult.new sameNameResult).ColName i) = some v) ∧
      ((PgSQLresult.new sameNameResult).res.fnames.Nodup →
        fm.length = PQnfields (PgSQLresult.new sameNameResult).res ∧
        ∀ i, i < PQnfields (PgSQLresult.new sameNameResult).res →
          ∃ v, fl[i]? = some v ∧
            fm.lookup ((PgSQLresult.new sameNameResult).ColName i) = some v) :=
  GetRowMap_matches_GetRow (PgSQLresult.new sameNameResult)
    (by unfold PGresult.WellFormed; decide) (by decide)

end PgSQLresult

end PgSQL
